import Mathlib

set_option linter.unusedSectionVars false

/-!
Shallow embedding of the boardly whiteboard scene engine
(a React + TypeScript single-file application).

Modelling conventions:
* TypeScript numbers are modelled as elements of a linear ordered field,
  instantiated at ℚ for the stateful reducer so that everything evaluates;
  decimal literals of the source are written as exact fractions.
* `structuredClone` / JSON-based deep cloning of plain data is the identity
  on the corresponding pure values.
* `Math.random()` is modelled by an explicit stream `rng : ℕ → ℚ` of draws,
  and `Math.cos` / `Math.sin` / `Math.PI` by explicit parameters, so the
  airbrush sampler is deterministic once its draws are fixed, exactly as the
  code is deterministic on replay once the dots are stored.
* Canvas 2D path construction is reified as a list of path commands;
  `stroke()` calls carry no geometry and are not recorded, while
  `beginPath()` / `closePath()` and every geometric command are.
-/

namespace Boardly

/-- `type Brush = "pencil" | "marker" | "highlighter" | "airbrush"`. -/
inductive Brush where
  | pencil
  | marker
  | highlighter
  | airbrush
  deriving DecidableEq

/-- `type Tool = "pen" | "eraser" | "select" | "shape"`. -/
inductive Tool where
  | pen
  | eraser
  | select
  | shape
  deriving DecidableEq

/-- The `"pen" | "eraser"` literal type used in `StrokeStyle.tool`. -/
inductive PenTool where
  | pen
  | eraser
  deriving DecidableEq

/-- `type ShapeType = "rect" | "ellipse" | "triangle" | "star" | "line" |
"pentagon" | "tree" | "umbrella" | "heart"`. -/
inductive ShapeType where
  | rect
  | ellipse
  | triangle
  | star
  | line
  | pentagon
  | tree
  | umbrella
  | heart
  deriving DecidableEq

/-- `type Point = { x: number; y: number }`. -/
structure Point (α : Type) where
  x : α
  y : α
  deriving DecidableEq

/-- `type StrokeStyle = { tool; brush; color; size }`. -/
structure StrokeStyle (α : Type) where
  tool : PenTool
  brush : Brush
  color : String
  size : α
  deriving DecidableEq

/-- An airbrush dot `{ x, y, r, a }` as stored on a stroke element. -/
structure Dot (α : Type) where
  x : α
  y : α
  r : α
  a : α
  deriving DecidableEq

/-- `type StrokeElement = { id; kind: "stroke"; points; style; dots? }`.
The `kind` discriminant is represented by the `Element` variant below. -/
structure StrokeElement (α : Type) where
  id : String
  points : List (Point α)
  style : StrokeStyle α
  dots : Option (List (Dot α))
  deriving DecidableEq

/-- `type ShapeElement = { id; kind: "shape"; shape; x1; y1; x2; y2; color; size }`. -/
structure ShapeElement (α : Type) where
  id : String
  shape : ShapeType
  x1 : α
  y1 : α
  x2 : α
  y2 : α
  color : String
  size : α
  deriving DecidableEq

/-- `type Element = StrokeElement | ShapeElement`, tagged by `kind`. -/
inductive Element (α : Type) where
  | stroke (s : StrokeElement α)
  | shape (s : ShapeElement α)
  deriving DecidableEq

/-- The record returned by `normalizeRect`. -/
structure Rect (α : Type) where
  left : α
  top : α
  right : α
  bottom : α
  w : α
  h : α
  deriving DecidableEq

variable {α : Type} [LinearOrderedField α]

/-- `normalizeRect(x1, y1, x2, y2)`: min/max normalization of the drag
anchors into a box with nonnegative width and height. -/
def normalizeRect (x1 y1 x2 y2 : α) : Rect α :=
  let left := min x1 x2
  let top := min y1 y2
  let right := max x1 x2
  let bottom := max y1 y2
  ⟨left, top, right, bottom, right - left, bottom - top⟩

/-- `hitTestShape(shape, p)`: the kind-specific hit test with
`pad = Math.max(6, shape.size)`; lines use a squared distance-to-segment
test that degrades to a point test when the squared length is below `1e-6`,
ellipses use the normalized ellipse test, all other kinds use the bounding
box expanded by `pad`. -/
def hitTestShape (s : ShapeElement α) (p : Point α) : Bool :=
  let pad := max 6 s.size
  if s.shape = ShapeType.line then
    let dx := s.x2 - s.x1
    let dy := s.y2 - s.y1
    let len2 := dx * dx + dy * dy
    if len2 < 1 / 1000000 then
      let ddx := p.x - s.x1
      let ddy := p.y - s.y1
      decide (ddx * ddx + ddy * ddy ≤ (pad + 2) * (pad + 2))
    else
      let t0 := ((p.x - s.x1) * dx + (p.y - s.y1) * dy) / len2
      let t := max 0 (min 1 t0)
      let cx := s.x1 + t * dx
      let cy := s.y1 + t * dy
      let ddx := p.x - cx
      let ddy := p.y - cy
      decide (ddx * ddx + ddy * ddy ≤ (pad + 2) * (pad + 2))
  else
    let r := normalizeRect s.x1 s.y1 s.x2 s.y2
    if s.shape ≠ ShapeType.ellipse then
      decide (r.left - pad ≤ p.x ∧ p.x ≤ r.right + pad ∧
              r.top - pad ≤ p.y ∧ p.y ≤ r.bottom + pad)
    else
      let cx := r.left + r.w / 2
      let cy := r.top + r.h / 2
      let rx := max 1 (r.w / 2) + pad
      let ry := max 1 (r.h / 2) + pad
      let nx := (p.x - cx) / rx
      let ny := (p.y - cy) / ry
      decide (nx * nx + ny * ny ≤ 1)

/-- A reified canvas-2D path command, as issued by `drawShape`. -/
inductive PathCmd (α : Type) where
  | beginPath
  | moveTo (x y : α)
  | lineTo (x y : α)
  | quadTo (cx cy x y : α)
  | bezierTo (c1x c1y c2x c2y x y : α)
  | arc (cx cy rad a1 a2 : α) (ccw : Bool)
  | ellipseArc (cx cy rx ry rot a1 a2 : α)
  | closePath
  | rectPath (x y w h : α)
  deriving DecidableEq

/-- One vertex of the pentagon / star loops: `(cx + cos(ang)*rad, cy + sin(ang)*rad)`. -/
def polyVertex (cosf sinf : α → α) (cx cy rad ang : α) : Point α :=
  ⟨cx + cosf ang * rad, cy + sinf ang * rad⟩

/-- The `for (let i = 0; i < n; i++) { if (i === 0) moveTo else lineTo }`
loop of the pentagon and star branches, with `f i` the `i`-th vertex. -/
def polyCmds (f : ℕ → Point α) : ℕ → List (PathCmd α)
  | 0 => []
  | n + 1 =>
    polyCmds f n ++
      [if n = 0 then PathCmd.moveTo (f n).x (f n).y else PathCmd.lineTo (f n).x (f n).y]

/-- The scallop loop of the umbrella branch:
`for (i = 0..scallops-1) quadraticCurveTo(xm, canopyBottom+scallopDepth, x1, canopyBottom)`. -/
def scallopCmds (left seg canopyBottom scallopDepth : α) : ℕ → List (PathCmd α)
  | 0 => []
  | i + 1 =>
    scallopCmds left seg canopyBottom scallopDepth i ++
      [PathCmd.quadTo ((left + (i : α) * seg + (left + (i : α) * seg + seg)) / 2)
        (canopyBottom + scallopDepth) (left + (i : α) * seg + seg) canopyBottom]

/-- The path-construction part of `drawShape(ctx, el)`: the exact sequence of
path commands issued for a shape of kind `k` with raw drag anchors
`(x1,y1)-(x2,y2)`.  `pi`, `cosf`, `sinf` stand for `Math.PI`, `Math.cos`,
`Math.sin`; decimal literals of the source are written as exact fractions. -/
def shapePath (pi : α) (cosf sinf : α → α) (k : ShapeType) (x1 y1 x2 y2 : α) :
    List (PathCmd α) :=
  let r := normalizeRect x1 y1 x2 y2
  let cx := r.left + r.w / 2
  let cy := r.top + r.h / 2
  match k with
  | ShapeType.line =>
    [PathCmd.beginPath, PathCmd.moveTo x1 y1, PathCmd.lineTo x2 y2]
  | ShapeType.rect =>
    [PathCmd.rectPath r.left r.top r.w r.h]
  | ShapeType.ellipse =>
    [PathCmd.beginPath,
     PathCmd.ellipseArc cx cy (max 1 (r.w / 2)) (max 1 (r.h / 2)) 0 0 (pi * 2)]
  | ShapeType.triangle =>
    [PathCmd.beginPath, PathCmd.moveTo (r.left + r.w / 2) r.top,
     PathCmd.lineTo r.left r.bottom, PathCmd.lineTo r.right r.bottom,
     PathCmd.closePath]
  | ShapeType.pentagon =>
    let rad := max 6 (min r.w r.h / 2)
    PathCmd.beginPath ::
      (polyCmds (fun i =>
        polyVertex cosf sinf cx cy rad (-(pi / 2) + ((i : α) * 2 * pi) / 5)) 5 ++
        [PathCmd.closePath])
  | ShapeType.star =>
    let outer := max 6 (min r.w r.h / 2)
    let inner := outer * (1 / 2)
    PathCmd.beginPath ::
      (polyCmds (fun i =>
        polyVertex cosf sinf cx cy (if i % 2 = 0 then outer else inner)
          (-(pi / 2) + ((i : α) * pi) / 5)) 10 ++
        [PathCmd.closePath])
  | ShapeType.tree =>
    let trunkH := max 6 (r.h * (18 / 100))
    let trunkW := max 6 (r.w * (18 / 100))
    let topY := r.top
    let baseY := r.bottom - trunkH
    [PathCmd.beginPath, PathCmd.moveTo cx topY, PathCmd.lineTo r.left baseY,
     PathCmd.lineTo r.right baseY, PathCmd.closePath,
     PathCmd.rectPath (cx - trunkW / 2) baseY trunkW trunkH]
  | ShapeType.umbrella =>
    let x := r.left
    let y := r.top
    let w := max 12 r.w
    let h := max 12 r.h
    let left := x + w * (12 / 100)
    let right := x + w * (88 / 100)
    let top := y + h * (10 / 100)
    let canopyBottom := y + h * (55 / 100)
    let scallopDepth := min (h * (9 / 100)) ((right - left) * (7 / 100))
    let seg := (right - left) / 4
    let stemTop := canopyBottom
    let stemBottom := y + h * (86 / 100)
    let hookR := min w h * (12 / 100)
    let hookCx := cx + hookR
    let hookCy := min (y + h * (94 / 100)) (stemBottom + hookR)
    [PathCmd.beginPath, PathCmd.moveTo left canopyBottom,
     PathCmd.quadTo cx top right canopyBottom] ++
      scallopCmds left seg canopyBottom scallopDepth 4 ++
      [PathCmd.beginPath, PathCmd.moveTo cx (top + h * (6 / 100)),
       PathCmd.lineTo cx canopyBottom,
       PathCmd.beginPath, PathCmd.moveTo cx stemTop, PathCmd.lineTo cx stemBottom,
       PathCmd.beginPath, PathCmd.arc hookCx hookCy hookR pi (pi * (155 / 100)) false]
  | ShapeType.heart =>
    let x := r.left
    let y := r.top
    let w := max 12 r.w
    let h := max 12 r.h
    let cx2 := x + w / 2
    let bottomY := y + h
    let topY := y + h * (30 / 100)
    let dipY := y + h * (22 / 100)
    [PathCmd.beginPath, PathCmd.moveTo cx2 bottomY,
     PathCmd.bezierTo (x + w * (5 / 100)) (y + h * (75 / 100)) x (y + h * (50 / 100))
       (x + w * (25 / 100)) topY,
     PathCmd.bezierTo (x + w * (20 / 100)) (y + h * (6 / 100)) (cx2 - w * (18 / 100))
       (y + h * (6 / 100)) cx2 dipY,
     PathCmd.bezierTo (cx2 + w * (18 / 100)) (y + h * (6 / 100)) (x + w * (80 / 100))
       (y + h * (6 / 100)) (x + w * (75 / 100)) topY,
     PathCmd.bezierTo (x + w) (y + h * (50 / 100)) (x + w * (95 / 100))
       (y + h * (75 / 100)) cx2 bottomY,
     PathCmd.closePath]

/-! ## Airbrush sampler (`addAirbrushDots`)

`dist(a, b) = Math.sqrt(dx*dx + dy*dy)` and
`steps = Math.max(1, Math.floor(d / 2))`.  Over ℚ we compute
`⌊√(d2)/2⌋ = ⌊√(d2/4)⌋ = Nat.sqrt ⌊d2/4⌋`; the theorem `airSteps_eq_floor_sqrt`
below proves this equals the floor of the real square root, so the embedding
is faithful to `Math.sqrt`. -/

/-- Squared distance `dx*dx + dy*dy` between two points. -/
def dist2 (a b : Point α) : α :=
  (a.x - b.x) * (a.x - b.x) + (a.y - b.y) * (a.y - b.y)

/-- `Math.max(1, Math.floor(dist(from, to) / 2))`. -/
def airSteps (a b : Point ℚ) : ℕ :=
  max 1 (Nat.sqrt (Int.toNat ⌊dist2 a b / 4⌋))

/-- `const radius = Math.max(2, stroke.style.size)`. -/
def airRadius (size : ℚ) : ℚ := max 2 size

/-- `const count = Math.floor(radius * 1.6)`. -/
def airCount (size : ℚ) : ℕ := (⌊airRadius size * (8 / 5)⌋).toNat

/-- One airbrush dot.  The three `Math.random()` draws of the inner loop body
are `rng k` (angle), `rng (k+1)` (radial distance) and `rng (k+2)` (dot size);
`twoPi`, `cosf`, `sinf` stand for `Math.PI * 2`, `Math.cos`, `Math.sin`;
the alpha `0.20` is the exact `1/5`. -/
def airDot (twoPi : ℚ) (cosf sinf : ℚ → ℚ) (rng : ℕ → ℚ)
    (radius x y : ℚ) (k : ℕ) : Dot ℚ :=
  let ang := rng k * twoPi
  let rr := rng (k + 1) * radius
  let dx := cosf ang * rr
  let dy := sinf ang * rr
  let dotSize := max 1 (rng (k + 2) * (radius / 3))
  ⟨x + dx, y + dy, dotSize, 1 / 5⟩

/-- The inner `for (let j = 0; j < count; j++)` loop at one interpolated
point `(x, y)`, with `k0` the index of the first random draw consumed. -/
def airDotsRow (twoPi : ℚ) (cosf sinf : ℚ → ℚ) (rng : ℕ → ℚ)
    (radius x y : ℚ) (k0 : ℕ) : ℕ → List (Dot ℚ)
  | 0 => []
  | j + 1 =>
    airDotsRow twoPi cosf sinf rng radius x y k0 j ++
      [airDot twoPi cosf sinf rng radius x y (k0 + 3 * j)]

/-- The outer `for (let i = 0; i <= steps; i++)` loop (called with `steps + 1`
so the interpolation parameter runs over `i / steps` for `i = 0 .. steps`). -/
def airSegDots (twoPi : ℚ) (cosf sinf : ℚ → ℚ) (rng : ℕ → ℚ)
    (a b : Point ℚ) (radius : ℚ) (steps count : ℕ) : ℕ → List (Dot ℚ)
  | 0 => []
  | i + 1 =>
    airSegDots twoPi cosf sinf rng a b radius steps count i ++
      airDotsRow twoPi cosf sinf rng radius
        (a.x + (b.x - a.x) * ((i : ℚ) / (steps : ℚ)))
        (a.y + (b.y - a.y) * ((i : ℚ) / (steps : ℚ)))
        (3 * count * i) count

/-- `addAirbrushDots(stroke, from, to)`: appends the freshly sampled dots to
the stroke's stored dot list (`stroke.dots ?? []`). -/
def addAirbrushDots (twoPi : ℚ) (cosf sinf : ℚ → ℚ) (rng : ℕ → ℚ)
    (st : StrokeElement ℚ) (a b : Point ℚ) : StrokeElement ℚ :=
  let steps := airSteps a b
  let radius := airRadius st.style.size
  let count := airCount st.style.size
  { st with
    dots := some (st.dots.getD [] ++
      airSegDots twoPi cosf sinf rng a b radius steps count (steps + 1)) }

/-! ## History stack and reducer state -/

/-- The `dragRef.current.orig` record of anchors. -/
structure Anchors where
  x1 : ℚ
  y1 : ℚ
  x2 : ℚ
  y2 : ℚ
  deriving DecidableEq

/-- `dragRef.current.mode : "none" | "move"`. -/
inductive DragMode where
  | none
  | move
  deriving DecidableEq

/-- The `dragRef.current` record. -/
structure DragInfo where
  mode : DragMode
  id : String
  start : Point ℚ
  orig : Anchors
  deriving DecidableEq

/-- The reducer state: React state plus the mutable refs that carry the
in-progress gesture.  Rendering state (canvas, rAF handle) carries no
document information and is omitted. -/
structure BoardState where
  tool : Tool
  brush : Brush
  color : String
  size : ℚ
  shapeType : ShapeType
  elements : List (Element ℚ)
  history : List (List (Element ℚ))
  historyIndex : ℤ
  activeStroke : Option (StrokeElement ℚ)
  activeShape : Option (ShapeElement ℚ)
  drag : DragInfo
  selectedId : Option String
  deriving DecidableEq

/-- `deepCloneScene`: `structuredClone` (or JSON round trip) of plain data,
the identity on the corresponding pure values. -/
def deepCloneScene (l : List (Element ℚ)) : List (Element ℚ) := l

/-- `pushHistory(nextScene)`: truncate the redo branch after the cursor,
append a deep copy of the scene, and set the cursor to the length of the
truncated prefix (`historyIndex >= 0 ? history.slice(0, historyIndex+1).length : 0`),
which is the last index of the new stack. -/
def pushHistory (s : BoardState) (nextScene : List (Element ℚ)) : BoardState :=
  let snapshot := deepCloneScene nextScene
  let base :=
    if 0 ≤ s.historyIndex then s.history.take (s.historyIndex + 1).toNat else []
  { s with history := base ++ [snapshot], historyIndex := (base.length : ℤ) }

/-- The record written to `localStorage` by `pushHistory`:
`{ scene: snapshot, historyIndex: historyIndex >= 0 ? historyIndex + 1 : 0 }`.
The spec calls these fields `document` and `cursorIndex`. -/
structure Persisted where
  document : List (Element ℚ)
  cursorIndex : ℤ
  deriving DecidableEq

/-- The persisted record produced by one `pushHistory(nextScene)` call. -/
def pushPersisted (s : BoardState) (nextScene : List (Element ℚ)) : Persisted :=
  ⟨deepCloneScene nextScene, if 0 ≤ s.historyIndex then s.historyIndex + 1 else 0⟩

/-- Every commit path: `setElements(next); pushHistory(next)`. -/
def commitScene (s : BoardState) (next : List (Element ℚ)) : BoardState :=
  pushHistory { s with elements := next } next

/-- `const canUndo = historyIndex > 0`. -/
def canUndo (s : BoardState) : Bool :=
  decide (0 < s.historyIndex)

/-- `const canRedo = historyIndex >= 0 && historyIndex < history.length - 1`. -/
def canRedo (s : BoardState) : Bool :=
  decide (0 ≤ s.historyIndex) && decide (s.historyIndex < (s.history.length : ℤ) - 1)

/-- `undo()`: guarded by `canUndo`, moves the cursor back one snapshot and
replaces the document wholesale by that snapshot (`if (!snap) return` is the
out-of-range guard; a stored snapshot is an array and hence never falsy). -/
def undo (s : BoardState) : BoardState :=
  if canUndo s then
    let nextIndex := s.historyIndex - 1
    match s.history[nextIndex.toNat]? with
    | Option.none => s
    | Option.some snap =>
      { s with historyIndex := nextIndex, elements := snap, selectedId := none }
  else s

/-- `redo()`: guarded by `canRedo`, symmetric to `undo`. -/
def redo (s : BoardState) : BoardState :=
  if canRedo s then
    let nextIndex := s.historyIndex + 1
    match s.history[nextIndex.toNat]? with
    | Option.none => s
    | Option.some snap =>
      { s with historyIndex := nextIndex, elements := snap, selectedId := none }
  else s

/-- `undo()` applied `n` times. -/
def undoN : ℕ → BoardState → BoardState
  | 0, s => s
  | n + 1, s => undoN n (undo s)

/-- `redo()` applied `n` times. -/
def redoN : ℕ → BoardState → BoardState
  | 0, s => s
  | n + 1, s => redoN n (redo s)

/-- The state after the initial-seed effect: a single empty-document
snapshot at cursor 0 (`setHistory([[]]); setHistoryIndex(0)`). -/
def initialState : BoardState :=
  { tool := Tool.pen, brush := Brush.pencil, color := "#111111", size := 6,
    shapeType := ShapeType.rect, elements := [], history := [[]], historyIndex := 0,
    activeStroke := none, activeShape := none,
    drag := ⟨DragMode.none, "", ⟨0, 0⟩, ⟨0, 0, 0, 0⟩⟩, selectedId := none }

/-- Reachability invariant of the history pair: before the seed effect the
stack is empty at cursor −1; afterwards the cursor addresses a stack entry. -/
def HistInv (s : BoardState) : Prop :=
  (s.historyIndex = -1 ∧ s.history = []) ∨
    (0 ≤ s.historyIndex ∧ s.historyIndex < (s.history.length : ℤ))

/-- Well-formedness maintained by every commit: the cursor sits on the last
snapshot and the live document equals that snapshot. -/
def HistGood (s : BoardState) : Prop :=
  0 ≤ s.historyIndex ∧ s.historyIndex = (s.history.length : ℤ) - 1 ∧
    s.elements = s.history.getD s.historyIndex.toNat []

/-! ## Hit-test / selection resolver and pointer handlers -/

/-- The `elements.filter((el) => el.kind === "shape")` projection. -/
def asShape : Element ℚ → Option (ShapeElement ℚ)
  | Element.shape sh => some sh
  | Element.stroke _ => none

/-- The shape sub-list of a document, in document order. -/
def shapesOf (els : List (Element ℚ)) : List (ShapeElement ℚ) :=
  els.filterMap asShape

/-- The selection resolver of `onPointerDown` for the select tool:
`[...shapes].reverse().find((s) => hitTestShape(s, p))`. -/
def selectHit (els : List (Element ℚ)) (p : Point ℚ) : Option (ShapeElement ℚ) :=
  (shapesOf els).reverse.find? (fun sh => hitTestShape sh p)

/-- `onPointerDown(e)` given the surface-local point `p` and the fresh id
`newId` produced by `makeId()`; `twoPi`, `cosf`, `sinf`, `rng` feed the
airbrush seeding call `addAirbrushDots(st, p, p)`. -/
def onPointerDown (newId : String) (twoPi : ℚ) (cosf sinf : ℚ → ℚ)
    (rng : ℕ → ℚ) (p : Point ℚ) (s : BoardState) : BoardState :=
  if s.tool = Tool.select then
    match selectHit s.elements p with
    | Option.some hit =>
      { s with selectedId := some hit.id,
               drag := ⟨DragMode.move, hit.id, p, ⟨hit.x1, hit.y1, hit.x2, hit.y2⟩⟩ }
    | Option.none =>
      { s with selectedId := none, drag := { s.drag with mode := DragMode.none } }
  else if s.tool = Tool.shape then
    { s with selectedId := none,
             activeShape := some ⟨newId, s.shapeType, p.x, p.y, p.x, p.y, s.color, s.size⟩ }
  else
    let st : StrokeElement ℚ :=
      { id := newId, points := [p],
        style := ⟨if s.tool = Tool.eraser then PenTool.eraser else PenTool.pen,
                  s.brush, s.color, s.size⟩,
        dots := if s.tool = Tool.eraser ∨ s.brush ≠ Brush.airbrush then none else some [] }
    let st :=
      if st.style.tool = PenTool.pen ∧ st.style.brush = Brush.airbrush then
        addAirbrushDots twoPi cosf sinf rng st p p
      else st
    { s with activeStroke := some st }

/-- `onPointerMove(e)` given the surface-local point `p`.  The select/drag
branch only recomputes a preview scene and requests a repaint; it mutates no
reducer state, so the state is returned unchanged there. -/
def onPointerMove (twoPi : ℚ) (cosf sinf : ℚ → ℚ) (rng : ℕ → ℚ)
    (p : Point ℚ) (s : BoardState) : BoardState :=
  if s.tool = Tool.select ∧ s.drag.mode = DragMode.move then
    s
  else if s.tool = Tool.shape then
    match s.activeShape with
    | Option.some sh => { s with activeShape := some { sh with x2 := p.x, y2 := p.y } }
    | Option.none => s
  else if s.tool = Tool.pen ∨ s.tool = Tool.eraser then
    match s.activeStroke with
    | Option.some st =>
      -- `st.points[st.points.length - 1]`; the list is nonempty because every
      -- stroke is seeded with one point at pointer-down.
      let last := (st.points.getLast?).getD p
      let st := { st with points := st.points ++ [p] }
      let st :=
        if st.style.tool = PenTool.pen ∧ st.style.brush = Brush.airbrush then
          addAirbrushDots twoPi cosf sinf rng st last p
        else st
      { s with activeStroke := some st }
    | Option.none => s
  else s

/-- The translated scene committed on pointer-up after a drag:
each matching shape gets anchors `orig + Δ`. -/
def moveScene (els : List (Element ℚ)) (id : String) (orig : Anchors)
    (dx dy : ℚ) : List (Element ℚ) :=
  els.map fun el =>
    match el with
    | Element.shape sh =>
      if sh.id = id then
        Element.shape { sh with x1 := orig.x1 + dx, y1 := orig.y1 + dy,
                                x2 := orig.x2 + dx, y2 := orig.y2 + dy }
      else el
    | Element.stroke _ => el

/-- `onPointerUp(e)` given the surface-local point `p`: commits the drag, the
in-progress shape or the in-progress stroke, pushing one history snapshot. -/
def onPointerUp (p : Point ℚ) (s : BoardState) : BoardState :=
  if s.tool = Tool.select ∧ s.drag.mode = DragMode.move then
    let s := { s with drag := { s.drag with mode := DragMode.none } }
    match s.selectedId with
    | Option.some id =>
      let dx := p.x - s.drag.start.x
      let dy := p.y - s.drag.start.y
      let next := moveScene s.elements id s.drag.orig dx dy
      commitScene s next
    | Option.none => s
  else if s.tool = Tool.shape then
    match s.activeShape with
    | Option.some sh =>
      commitScene { s with activeShape := none } (s.elements ++ [Element.shape sh])
    | Option.none => s
  else if s.tool = Tool.pen ∨ s.tool = Tool.eraser then
    match s.activeStroke with
    | Option.some st =>
      commitScene { s with activeStroke := none } (s.elements ++ [Element.stroke st])
    | Option.none => s
  else s

/-- `bindPointerEvents` wires `pointercancel` to the same handler as
`pointerup`: `const cancel = (e) => onPointerUp(e)`. -/
def onPointerCancel (p : Point ℚ) (s : BoardState) : BoardState :=
  onPointerUp p s

/-! ## Spec-side definitions (from the specification's words, for comparison) -/

/-- Spec 4.1 `distanceToSegmentSquared(segStart, segEnd, point)`: the
projection-clamped squared distance, degrading to the squared distance to
the first endpoint when the segment's squared length is below `1e-6`. -/
def distanceToSegmentSquared (a b p : Point ℚ) : ℚ :=
  let dx := b.x - a.x
  let dy := b.y - a.y
  let len2 := dx * dx + dy * dy
  if len2 < 1 / 1000000 then
    (p.x - a.x) ^ 2 + (p.y - a.y) ^ 2
  else
    let t := max 0 (min 1 (((p.x - a.x) * dx + (p.y - a.y) * dy) / len2))
    (p.x - (a.x + t * dx)) ^ 2 + (p.y - (a.y + t * dy)) ^ 2

/-- The claim's words for the line test: the clamped squared
point-to-segment distance, with no epsilon degradation. -/
def clampedSegDist2 (a b p : Point ℚ) : ℚ :=
  let dx := b.x - a.x
  let dy := b.y - a.y
  let len2 := dx * dx + dy * dy
  let t := max 0 (min 1 (((p.x - a.x) * dx + (p.y - a.y) * dy) / len2))
  (p.x - (a.x + t * dx)) ^ 2 + (p.y - (a.y + t * dy)) ^ 2

/-- Spec 4.1 `containsPoint(box, point, pad)`: the box expanded by `pad`
on every side. -/
def containsPoint (r : Rect ℚ) (p : Point ℚ) (pad : ℚ) : Prop :=
  r.left - pad ≤ p.x ∧ p.x ≤ r.right + pad ∧ r.top - pad ≤ p.y ∧ p.y ≤ r.bottom + pad

/-- Spec 4.1 `containsEllipse(box, point, pad)`: the normalized ellipse test
with radii half the box dimensions (minimum 1) expanded by `pad`. -/
def containsEllipse (r : Rect ℚ) (p : Point ℚ) (pad : ℚ) : Prop :=
  let cx := r.left + r.w / 2
  let cy := r.top + r.h / 2
  ((p.x - cx) / (max 1 (r.w / 2) + pad)) ^ 2 +
      ((p.y - cy) / (max 1 (r.h / 2) + pad)) ^ 2 ≤ 1

/-- The backward scan of the claim: walk the document once and keep the
last (= topmost) shape whose test succeeds; strokes are never candidates. -/
def specScan (els : List (Element ℚ)) (p : Point ℚ) : Option (ShapeElement ℚ) :=
  els.foldl
    (fun acc e =>
      match e with
      | Element.shape sh => if hitTestShape sh p then some sh else acc
      | Element.stroke _ => acc)
    none

/-- A closed polygon path through the given vertices:
`beginPath`, `moveTo` the first, `lineTo` the rest, `closePath`. -/
def specPolygonPath : List (Point α) → List (PathCmd α)
  | [] => [PathCmd.beginPath, PathCmd.closePath]
  | v :: vs =>
    PathCmd.beginPath :: PathCmd.moveTo v.x v.y ::
      (vs.map fun u => PathCmd.lineTo u.x u.y) ++ [PathCmd.closePath]

/-- The spec's pentagon vertices: a regular polygon inscribed in the circle
of radius `rad` about `c`, first vertex at angle −90°, angular step 2π/5. -/
def specPentagonVerts (pi : α) (cosf sinf : α → α) (c : Point α) (rad : α) :
    List (Point α) :=
  (List.range 5).map fun i : ℕ =>
    ⟨c.x + cosf (-(pi / 2) + ((i : α) * 2 * pi) / 5) * rad,
     c.y + sinf (-(pi / 2) + ((i : α) * 2 * pi) / 5) * rad⟩

/-- The spec's star vertices: ten vertices from the same angular start with
step π/5, alternating the outer radius and 0.5 times the outer radius. -/
def specStarVerts (pi : α) (cosf sinf : α → α) (c : Point α) (outer : α) :
    List (Point α) :=
  (List.range 10).map fun i : ℕ =>
    ⟨c.x + cosf (-(pi / 2) + ((i : α) * pi) / 5) *
        (if i % 2 = 0 then outer else outer * (1 / 2)),
     c.y + sinf (-(pi / 2) + ((i : α) * pi) / 5) *
        (if i % 2 = 0 then outer else outer * (1 / 2))⟩

/-! ## Persisted-state serialization

`JSON.stringify` of the plain records is modelled by an explicit JSON value
tree: object fields appear in insertion order (the literal order of the
source), `undefined` fields (`dots` for non-airbrush strokes) are omitted,
and stringification of a value tree is deterministic, so value-tree equality
models byte-for-byte equality of the stored strings. -/

/-- A JSON value. -/
inductive Json where
  | null
  | bool (b : Bool)
  | num (q : ℚ)
  | str (s : String)
  | arr (items : List Json)
  | obj (fields : List (String × Json))

/-- The serialized form of a `"pen" | "eraser"` tag. -/
def encPenTool : PenTool → String
  | PenTool.pen => "pen"
  | PenTool.eraser => "eraser"

/-- The serialized form of a brush tag. -/
def encBrush : Brush → String
  | Brush.pencil => "pencil"
  | Brush.marker => "marker"
  | Brush.highlighter => "highlighter"
  | Brush.airbrush => "airbrush"

/-- The serialized form of a shape tag. -/
def encShapeType : ShapeType → String
  | ShapeType.rect => "rect"
  | ShapeType.ellipse => "ellipse"
  | ShapeType.triangle => "triangle"
  | ShapeType.star => "star"
  | ShapeType.line => "line"
  | ShapeType.pentagon => "pentagon"
  | ShapeType.tree => "tree"
  | ShapeType.umbrella => "umbrella"
  | ShapeType.heart => "heart"

/-- `{ x, y }`. -/
def encPoint (p : Point ℚ) : Json :=
  Json.obj [("x", Json.num p.x), ("y", Json.num p.y)]

/-- `{ x, y, r, a }`. -/
def encDot (d : Dot ℚ) : Json :=
  Json.obj [("x", Json.num d.x), ("y", Json.num d.y),
            ("r", Json.num d.r), ("a", Json.num d.a)]

/-- `{ tool, brush, color, size }`. -/
def encStyle (st : StrokeStyle ℚ) : Json :=
  Json.obj [("tool", Json.str (encPenTool st.tool)),
            ("brush", Json.str (encBrush st.brush)),
            ("color", Json.str st.color),
            ("size", Json.num st.size)]

/-- One element, with fields in the literal order of the source; an
`undefined` `dots` field is omitted by `JSON.stringify`. -/
def encElement : Element ℚ → Json
  | Element.stroke s =>
    Json.obj
      ([("id", Json.str s.id), ("kind", Json.str "stroke"),
        ("points", Json.arr (s.points.map encPoint)), ("style", encStyle s.style)] ++
        (match s.dots with
         | Option.none => []
         | Option.some ds => [("dots", Json.arr (ds.map encDot))]))
  | Element.shape s =>
    Json.obj
      [("id", Json.str s.id), ("kind", Json.str "shape"),
       ("shape", Json.str (encShapeType s.shape)),
       ("x1", Json.num s.x1), ("y1", Json.num s.y1),
       ("x2", Json.num s.x2), ("y2", Json.num s.y2),
       ("color", Json.str s.color), ("size", Json.num s.size)]

/-- The serialized scene array, order-preserving. -/
def encScene (l : List (Element ℚ)) : Json :=
  Json.arr (l.map encElement)

/-- The full persisted record `{ scene, historyIndex }`. -/
def encPersisted (p : Persisted) : Json :=
  Json.obj [("scene", encScene p.document), ("historyIndex", Json.num (p.cursorIndex : ℚ))]

/-- Decode a `"pen" | "eraser"` tag. -/
def decPenTool (s : String) : Option PenTool :=
  if s = "pen" then some PenTool.pen
  else if s = "eraser" then some PenTool.eraser
  else none

/-- Decode a brush tag. -/
def decBrush (s : String) : Option Brush :=
  if s = "pencil" then some Brush.pencil
  else if s = "marker" then some Brush.marker
  else if s = "highlighter" then some Brush.highlighter
  else if s = "airbrush" then some Brush.airbrush
  else none

/-- Decode a shape tag. -/
def decShapeType (s : String) : Option ShapeType :=
  if s = "rect" then some ShapeType.rect
  else if s = "ellipse" then some ShapeType.ellipse
  else if s = "triangle" then some ShapeType.triangle
  else if s = "star" then some ShapeType.star
  else if s = "line" then some ShapeType.line
  else if s = "pentagon" then some ShapeType.pentagon
  else if s = "tree" then some ShapeType.tree
  else if s = "umbrella" then some ShapeType.umbrella
  else if s = "heart" then some ShapeType.heart
  else none

/-- Decode `{ x, y }`. -/
def decPoint : Json → Option (Point ℚ)
  | Json.obj [("x", Json.num a), ("y", Json.num b)] => some ⟨a, b⟩
  | _ => none

/-- Decode `{ x, y, r, a }`. -/
def decDot : Json → Option (Dot ℚ)
  | Json.obj [("x", Json.num a), ("y", Json.num b),
              ("r", Json.num c), ("a", Json.num d)] => some ⟨a, b, c, d⟩
  | _ => none

/-- Decode each item of a list, failing if any item fails. -/
def decList (f : Json → Option β) : List Json → Option (List β)
  | [] => some []
  | j :: js =>
    match f j, decList f js with
    | some b, some bs => some (b :: bs)
    | _, _ => none

/-- Decode `{ tool, brush, color, size }`. -/
def decStyle : Json → Option (StrokeStyle ℚ)
  | Json.obj [("tool", Json.str t), ("brush", Json.str b),
              ("color", Json.str c), ("size", Json.num sz)] =>
    match decPenTool t, decBrush b with
    | some t', some b' => some ⟨t', b', c, sz⟩
    | _, _ => none
  | _ => none

/-- Decode one element of the persisted scene.  The three alternatives are
told apart by the record arity; the field-name guards demand exactly the
keys, in exactly the order, that `encElement` emits. -/
def decElement : Json → Option (Element ℚ)
  | Json.obj [(k1, Json.str i), (k2, Json.str kind),
              (k3, Json.arr pts), (k4, stj)] =>
    if k1 = "id" ∧ k2 = "kind" ∧ kind = "stroke" ∧ k3 = "points" ∧ k4 = "style" then
      match decList decPoint pts, decStyle stj with
      | some pts', some st' => some (Element.stroke ⟨i, pts', st', none⟩)
      | _, _ => none
    else none
  | Json.obj [(k1, Json.str i), (k2, Json.str kind),
              (k3, Json.arr pts), (k4, stj), (k5, Json.arr ds)] =>
    if k1 = "id" ∧ k2 = "kind" ∧ kind = "stroke" ∧ k3 = "points" ∧ k4 = "style" ∧
        k5 = "dots" then
      match decList decPoint pts, decStyle stj, decList decDot ds with
      | some pts', some st', some ds' => some (Element.stroke ⟨i, pts', st', some ds'⟩)
      | _, _, _ => none
    else none
  | Json.obj [(k1, Json.str i), (k2, Json.str kind), (k3, Json.str sh),
              (k4, Json.num a1), (k5, Json.num b1),
              (k6, Json.num a2), (k7, Json.num b2),
              (k8, Json.str c), (k9, Json.num sz)] =>
    if k1 = "id" ∧ k2 = "kind" ∧ kind = "shape" ∧ k3 = "shape" ∧ k4 = "x1" ∧
        k5 = "y1" ∧ k6 = "x2" ∧ k7 = "y2" ∧ k8 = "color" ∧ k9 = "size" then
      match decShapeType sh with
      | some sh' => some (Element.shape ⟨i, sh', a1, b1, a2, b2, c, sz⟩)
      | Option.none => none
    else none
  | _ => none

/-- Decode the scene array. -/
def decScene : Json → Option (List (Element ℚ))
  | Json.arr js => decList decElement js
  | _ => none

/-- Decode the persisted record `{ scene, historyIndex }`. -/
def decPersisted : Json → Option Persisted
  | Json.obj [("scene", sj), ("historyIndex", Json.num n)] =>
    match decScene sj with
    | some d => if n.den = 1 then some ⟨d, n.num⟩ else none
    | Option.none => none
  | _ => none

/-- The load effect: on mount, parse the stored record; if the `scene`
field is a well-formed array, adopt it as the document and seed the history
with one snapshot at cursor 0; otherwise (no stored state, parse failure)
leave the state alone. -/
def loadEffect (raw : Option Json) (s : BoardState) : BoardState :=
  match raw with
  | Option.none => s
  | Option.some j =>
    match decPersisted j with
    | Option.none => s
    | Option.some p =>
      { s with elements := p.document, history := [deepCloneScene p.document],
               historyIndex := 0, selectedId := none }

/-! ## Theorems -/

/-- Swapping the two drag anchors leaves the normalized box unchanged. -/
theorem normalizeRect_swap (x1 y1 x2 y2 : α) :
    normalizeRect x1 y1 x2 y2 = normalizeRect x2 y2 x1 y1 := by
  simp [normalizeRect, min_comm, max_comm]

/-- The normalized box has nonnegative width. -/
theorem normalizeRect_w_nonneg (x1 y1 x2 y2 : α) :
    0 ≤ (normalizeRect x1 y1 x2 y2).w := by
  simp [normalizeRect, sub_nonneg, min_le_max]

/-- The normalized box has nonnegative height. -/
theorem normalizeRect_h_nonneg (x1 y1 x2 y2 : α) :
    0 ≤ (normalizeRect x1 y1 x2 y2).h := by
  simp [normalizeRect, sub_nonneg, min_le_max]

/-- C2: `normalizeRect` is invariant under swapping the drag endpoints, the
resulting width and height are nonnegative, and consequently the path
constructed by `drawShape` for every non-line shape kind is identical for a
drag and its reverse. -/
theorem normalizeRect_direction_invariant (pi : α) (cosf sinf : α → α)
    (x1 y1 x2 y2 : α) :
    normalizeRect x1 y1 x2 y2 = normalizeRect x2 y2 x1 y1 ∧
    0 ≤ (normalizeRect x1 y1 x2 y2).w ∧ 0 ≤ (normalizeRect x1 y1 x2 y2).h ∧
    ∀ k : ShapeType, k ≠ ShapeType.line →
      shapePath pi cosf sinf k x1 y1 x2 y2 = shapePath pi cosf sinf k x2 y2 x1 y1 := by
  refine ⟨normalizeRect_swap x1 y1 x2 y2, normalizeRect_w_nonneg x1 y1 x2 y2,
    normalizeRect_h_nonneg x1 y1 x2 y2, ?_⟩
  intro k hk
  cases k
  case line => exact absurd rfl hk
  all_goals simp only [shapePath, normalizeRect_swap x1 y1 x2 y2]

/-- Witness for C2: a concrete rectangle drag and its reverse produce the
same path. -/
theorem normalizeRect_direction_invariant_witness :
    ShapeType.rect ≠ ShapeType.line ∧
      shapePath (0 : ℚ) id id ShapeType.rect 1 2 3 4 =
        shapePath (0 : ℚ) id id ShapeType.rect 3 4 1 2 :=
  ⟨by decide,
   (normalizeRect_direction_invariant (0 : ℚ) id id 1 2 3 4).2.2.2
     ShapeType.rect (by decide)⟩

/-- C6 counterexample: for the box dragged `(0,0) → (4,4)` the code inscribes
the pentagon in a circle of radius `max(6, min(w,h)/2) = 6`, not the claimed
`min(w,h)/2 = 2`, so the constructed path differs from a regular pentagon of
radius half the smaller box dimension. -/
theorem pentagon_radius_cx :
    shapePath Real.pi Real.cos Real.sin ShapeType.pentagon 0 0 4 4 ≠
      specPolygonPath (specPentagonVerts Real.pi Real.cos Real.sin
        ⟨(normalizeRect (0 : ℝ) 0 4 4).left + (normalizeRect (0 : ℝ) 0 4 4).w / 2,
         (normalizeRect (0 : ℝ) 0 4 4).top + (normalizeRect (0 : ℝ) 0 4 4).h / 2⟩
        (min (normalizeRect (0 : ℝ) 0 4 4).w (normalizeRect (0 : ℝ) 0 4 4).h / 2)) := by
  intro h
  have h2 := congrArg (fun l => l[1]?) h
  simp only [shapePath, specPolygonPath, specPentagonVerts, polyCmds, polyVertex,
    normalizeRect, List.range_succ, List.range_zero, List.map_append, List.map_cons,
    List.map_nil, List.nil_append, List.cons_append, List.append_assoc] at h2
  norm_num at h2

/-- The pentagon/star loop unrolls to a `moveTo` at vertex 0 followed by
`lineTo`s at vertices 1, …, n. -/
theorem polyCmds_succ (f : ℕ → Point α) : ∀ n : ℕ,
    polyCmds f (n + 1) =
      PathCmd.moveTo (f 0).x (f 0).y ::
        (List.range n).map (fun i => PathCmd.lineTo (f (i + 1)).x (f (i + 1)).y) := by
  intro n
  induction n with
  | zero => simp [polyCmds]
  | succ m ih =>
    rw [show m + 1 + 1 = (m + 1) + 1 from rfl, polyCmds, ih]
    simp [List.range_succ]

/-- The vertex loop of the pentagon and star branches issues exactly the
closed polygon path of the spec through the vertices `f 0, …, f n`. -/
theorem polyPath_eq (f : ℕ → Point α) (n : ℕ) :
    PathCmd.beginPath :: (polyCmds f (n + 1) ++ [PathCmd.closePath]) =
      specPolygonPath ((List.range (n + 1)).map f) := by
  rw [polyCmds_succ, List.range_succ_eq_map, List.map_cons, specPolygonPath,
    List.map_map, List.map_map]
  rfl

/-- C6 (amended): for every normalized box, the pentagon path is the closed
regular pentagon inscribed in a circle of radius `max(6, min(w,h)/2)` about
the box center, first vertex at angle −90°; the star path visits 10 vertices
from the same angular start, alternating that radius with 0.5 times it. -/
theorem pentagon_star_geometry (pi : α) (cosf sinf : α → α) (x1 y1 x2 y2 : α) :
    shapePath pi cosf sinf ShapeType.pentagon x1 y1 x2 y2 =
      specPolygonPath (specPentagonVerts pi cosf sinf
        ⟨(normalizeRect x1 y1 x2 y2).left + (normalizeRect x1 y1 x2 y2).w / 2,
         (normalizeRect x1 y1 x2 y2).top + (normalizeRect x1 y1 x2 y2).h / 2⟩
        (max 6 (min (normalizeRect x1 y1 x2 y2).w (normalizeRect x1 y1 x2 y2).h / 2))) ∧
    shapePath pi cosf sinf ShapeType.star x1 y1 x2 y2 =
      specPolygonPath (specStarVerts pi cosf sinf
        ⟨(normalizeRect x1 y1 x2 y2).left + (normalizeRect x1 y1 x2 y2).w / 2,
         (normalizeRect x1 y1 x2 y2).top + (normalizeRect x1 y1 x2 y2).h / 2⟩
        (max 6 (min (normalizeRect x1 y1 x2 y2).w (normalizeRect x1 y1 x2 y2).h / 2))) := by
  constructor
  · exact polyPath_eq _ 4
  · exact polyPath_eq (fun i : ℕ =>
      polyVertex cosf sinf
        ((normalizeRect x1 y1 x2 y2).left + (normalizeRect x1 y1 x2 y2).w / 2)
        ((normalizeRect x1 y1 x2 y2).top + (normalizeRect x1 y1 x2 y2).h / 2)
        (if i % 2 = 0 then
           max 6 (min (normalizeRect x1 y1 x2 y2).w (normalizeRect x1 y1 x2 y2).h / 2)
         else
           max 6 (min (normalizeRect x1 y1 x2 y2).w (normalizeRect x1 y1 x2 y2).h / 2) * (1 / 2))
        (-(pi / 2) + ((i : α) * pi) / 5)) 9

/-! ### History stack -/

/-- Indexing into the left part of an appended list. -/
theorem getD_append_left {β : Type} (l m : List β) (n : ℕ) (d : β)
    (h : n < l.length) : (l ++ m).getD n d = l.getD n d := by
  simp [List.getD_eq_getElem?_getD, List.getElem?_append, h]

/-- Indexing the freshly appended snapshot. -/
theorem getD_concat_length {β : Type} (l : List β) (x d : β) :
    (l ++ [x]).getD l.length d = x := by
  simp [List.getD_eq_getElem?_getD, List.getElem?_concat_length]

/-- `pushHistory` only touches the history stack and its cursor. -/
theorem pushHistory_others (s : BoardState) (d : List (Element ℚ)) :
    (pushHistory s d).elements = s.elements ∧
    (pushHistory s d).activeStroke = s.activeStroke ∧
    (pushHistory s d).activeShape = s.activeShape ∧
    (pushHistory s d).selectedId = s.selectedId :=
  ⟨rfl, rfl, rfl, rfl⟩

/-- The stack after `pushHistory`: truncate after the cursor, append a copy.
(`(historyIndex + 1).toNat = 0` when the cursor is negative, so the
truncation formula covers both branches of the source.) -/
theorem pushHistory_history (s : BoardState) (d : List (Element ℚ)) :
    (pushHistory s d).history
      = s.history.take (s.historyIndex + 1).toNat ++ [d] := by
  unfold pushHistory deepCloneScene
  by_cases h : 0 ≤ s.historyIndex
  · simp [h]
  · have h0 : (s.historyIndex + 1).toNat = 0 := by omega
    simp [h, h0]

/-- The cursor after `pushHistory` is the length of the truncated prefix,
that is, the last index of the new stack. -/
theorem pushHistory_index (s : BoardState) (d : List (Element ℚ)) :
    (pushHistory s d).historyIndex
      = ((pushHistory s d).history.length : ℤ) - 1 := by
  unfold pushHistory deepCloneScene
  by_cases h : 0 ≤ s.historyIndex <;> simp [h]

/-- A commit from a well-formed state appends the document to the stack and
keeps the state well-formed. -/
theorem commitScene_good (s : BoardState) (d : List (Element ℚ))
    (hs : HistGood s) :
    (commitScene s d).history = s.history ++ [d] ∧
    (commitScene s d).historyIndex = (s.history.length : ℤ) ∧
    (commitScene s d).elements = d ∧
    HistGood (commitScene s d) := by
  obtain ⟨h0, hcur, _⟩ := hs
  have htake : ((s.historyIndex + 1).toNat) = s.history.length := by omega
  have hh : (commitScene s d).history = s.history ++ [d] := by
    rw [commitScene, pushHistory_history]
    simp [htake, List.take_length]
  have hi : (commitScene s d).historyIndex = (s.history.length : ℤ) := by
    have := pushHistory_index { s with elements := d } d
    rw [commitScene, this, pushHistory_history]
    simp [htake, List.take_length]
  refine ⟨hh, hi, rfl, ?_⟩
  refine ⟨by omega, ?_, ?_⟩
  · rw [hh, hi]; simp
  · rw [hh, hi]
    show d = (s.history ++ [d]).getD (s.history.length : ℤ).toNat []
    simp [getD_concat_length]

/-- Folding commits over a document list from a well-formed state. -/
theorem foldCommit_spec (docs : List (List (Element ℚ))) :
    ∀ s : BoardState, HistGood s →
      (docs.foldl commitScene s).history = s.history ++ docs ∧
      (docs.foldl commitScene s).historyIndex
        = (s.history.length : ℤ) + docs.length - 1 ∧
      HistGood (docs.foldl commitScene s) := by
  induction docs with
  | nil =>
    intro s hs
    refine ⟨by simp, ?_, hs⟩
    simp [hs.2.1]
  | cons d ds ih =>
    intro s hs
    obtain ⟨hh, hi, _, hgood⟩ := commitScene_good s d hs
    obtain ⟨ih1, ih2, ih3⟩ := ih (commitScene s d) hgood
    refine ⟨?_, ?_, ih3⟩
    · simp only [List.foldl_cons, ih1, hh]
      simp
    · rw [List.foldl_cons, ih2, hh]
      simp only [List.length_append, List.length_cons, List.length_nil]
      push_cast
      ring

/-- `undo` in range: the cursor moves back one and the document is replaced
wholesale by the snapshot at the new cursor. -/
theorem undo_spec (s : BoardState) (h1 : 0 < s.historyIndex)
    (h2 : s.historyIndex < (s.history.length : ℤ)) :
    undo s = { s with historyIndex := s.historyIndex - 1,
                      elements := s.history.getD (s.historyIndex - 1).toNat [],
                      selectedId := none } := by
  have hc : canUndo s = true := by simp [canUndo, h1]
  have hlt : (s.historyIndex - 1).toNat < s.history.length := by omega
  have hlt2 : s.historyIndex.toNat - 1 < s.history.length := by omega
  unfold undo
  rw [if_pos hc]
  simp only [List.getElem?_eq_getElem hlt]
  simp [List.getD_eq_getElem?_getD, List.getElem?_eq_getElem hlt,
    List.getElem?_eq_getElem hlt2]

/-- Field-level consequences of `undo_spec`. -/
theorem undo_fields (s : BoardState) (h1 : 0 < s.historyIndex)
    (h2 : s.historyIndex < (s.history.length : ℤ)) :
    (undo s).history = s.history ∧
    (undo s).historyIndex = s.historyIndex - 1 ∧
    (undo s).elements = s.history.getD (s.historyIndex - 1).toNat [] := by
  rw [undo_spec s h1 h2]
  exact ⟨rfl, rfl, rfl⟩

/-- `redo` in range: symmetric to `undo_spec`. -/
theorem redo_spec (s : BoardState) (h1 : 0 ≤ s.historyIndex)
    (h2 : s.historyIndex < (s.history.length : ℤ) - 1) :
    redo s = { s with historyIndex := s.historyIndex + 1,
                      elements := s.history.getD (s.historyIndex + 1).toNat [],
                      selectedId := none } := by
  have hc : canRedo s = true := by simp [canRedo, h1, h2]
  have hlt : (s.historyIndex + 1).toNat < s.history.length := by omega
  have hlt2 : s.historyIndex.toNat + 1 < s.history.length := by omega
  unfold redo
  rw [if_pos hc]
  simp only [List.getElem?_eq_getElem hlt]
  simp [List.getD_eq_getElem?_getD, List.getElem?_eq_getElem hlt,
    List.getElem?_eq_getElem hlt2]

/-- Field-level consequences of `redo_spec`. -/
theorem redo_fields (s : BoardState) (h1 : 0 ≤ s.historyIndex)
    (h2 : s.historyIndex < (s.history.length : ℤ) - 1) :
    (redo s).history = s.history ∧
    (redo s).historyIndex = s.historyIndex + 1 ∧
    (redo s).elements = s.history.getD (s.historyIndex + 1).toNat [] := by
  rw [redo_spec s h1 h2]
  exact ⟨rfl, rfl, rfl⟩

/-- Iterated `undo` within range. -/
theorem undoN_spec : ∀ (k : ℕ) (s : BoardState),
    (k : ℤ) ≤ s.historyIndex → s.historyIndex < (s.history.length : ℤ) →
    (undoN k s).history = s.history ∧
    (undoN k s).historyIndex = s.historyIndex - k ∧
    (undoN k s).elements = (if k = 0 then s.elements
      else s.history.getD (s.historyIndex - k).toNat []) := by
  intro k
  induction k with
  | zero => intro s _ _; simp [undoN]
  | succ n ih =>
    intro s hk hlen
    have h1 : 0 < s.historyIndex := by
      have : ((n : ℤ) + 1) ≤ s.historyIndex := by push_cast at hk ⊢; omega
      omega
    obtain ⟨hf1, hf2, hf3⟩ := undo_fields s h1 hlen
    rw [undoN]
    obtain ⟨ih1, ih2, ih3⟩ := ih (undo s)
      (by rw [hf2]; push_cast at hk ⊢; omega)
      (by rw [hf2, hf1]; omega)
    refine ⟨by rw [ih1, hf1], ?_, ?_⟩
    · rw [ih2, hf2]; push_cast; ring
    · rw [ih3]
      by_cases hn : n = 0
      · subst hn
        rw [if_pos rfl, if_neg (Nat.succ_ne_zero 0), hf3]
        norm_num
      · rw [if_neg hn, if_neg (Nat.succ_ne_zero n), hf1, hf2]
        congr 2
        push_cast
        ring

/-- Iterated `redo` within range. -/
theorem redoN_spec : ∀ (k : ℕ) (s : BoardState),
    0 ≤ s.historyIndex → s.historyIndex + k < (s.history.length : ℤ) →
    (redoN k s).history = s.history ∧
    (redoN k s).historyIndex = s.historyIndex + k ∧
    (redoN k s).elements = (if k = 0 then s.elements
      else s.history.getD (s.historyIndex + k).toNat []) := by
  intro k
  induction k with
  | zero => intro s _ _; simp [redoN]
  | succ n ih =>
    intro s h0 hlen
    have h2 : s.historyIndex < (s.history.length : ℤ) - 1 := by
      push_cast at hlen; omega
    obtain ⟨hf1, hf2, hf3⟩ := redo_fields s h0 h2
    rw [redoN]
    obtain ⟨ih1, ih2, ih3⟩ := ih (redo s)
      (by rw [hf2]; omega)
      (by rw [hf2, hf1]; push_cast at hlen ⊢; omega)
    refine ⟨by rw [ih1, hf1], ?_, ?_⟩
    · rw [ih2, hf2]; push_cast; ring
    · rw [ih3]
      by_cases hn : n = 0
      · subst hn
        rw [if_pos rfl, if_neg (Nat.succ_ne_zero 0), hf3]
        norm_num
      · rw [if_neg hn, if_neg (Nat.succ_ne_zero n), hf1, hf2]
        congr 2
        push_cast
        ring

/-- The seeded initial state is well-formed. -/
theorem initialState_good : HistGood initialState := by
  refine ⟨?_, ?_, ?_⟩ <;> simp [HistGood, initialState, List.getD]

/-- C1: starting from the initial history (a single empty-document snapshot
at cursor 0), after any sequence of N commits through `pushHistory`,
applying `undo()` N times yields the empty document, and then applying
`redo()` N times restores the final document, element-for-element. -/
theorem history_roundtrip (docs : List (List (Element ℚ))) :
    (undoN docs.length (docs.foldl commitScene initialState)).elements = [] ∧
    (redoN docs.length
        (undoN docs.length (docs.foldl commitScene initialState))).elements
      = (docs.foldl commitScene initialState).elements := by
  obtain ⟨hh, hi, hgood⟩ := foldCommit_spec docs initialState initialState_good
  have hlen1 : (initialState.history.length : ℤ) = 1 := by simp [initialState]
  set sN := docs.foldl commitScene initialState with hsN
  have hiN : sN.historyIndex = (docs.length : ℤ) := by
    rw [hi, hlen1]; ring
  have hlenN : (sN.history.length : ℤ) = (docs.length : ℤ) + 1 := by
    rw [hh]; simp [initialState]
  obtain ⟨hu1, hu2, hu3⟩ := undoN_spec docs.length sN (by omega) (by omega)
  constructor
  · rw [hu3]
    by_cases hN : docs.length = 0
    · rw [if_pos hN]
      have : docs = [] := List.length_eq_zero.mp hN
      simp [hsN, this, initialState]
    · rw [if_neg hN, hiN]
      simp only [sub_self, Int.toNat_zero, hh]
      simp [initialState]
  · obtain ⟨hr1, hr2, hr3⟩ := redoN_spec docs.length
      (undoN docs.length sN)
      (by rw [hu2, hiN]; omega)
      (by rw [hu2, hu1, hiN]; omega)
    rw [hr3, hu2, hu1, hiN]
    by_cases hN : docs.length = 0
    · rw [if_pos hN]
      rw [hu3, if_pos hN]
    · rw [if_neg hN]
      have hse : sN.elements = sN.history.getD sN.historyIndex.toNat [] := hgood.2.2
      rw [hse, hiN]
      have : (docs.length : ℤ) - (docs.length : ℤ) + (docs.length : ℤ)
          = (docs.length : ℤ) := by ring
      rw [this]

/-- Any commit leaves the cursor on the last snapshot, so `canRedo` is false
immediately after it. -/
theorem commitScene_canRedo_false (s : BoardState) (d : List (Element ℚ)) :
    canRedo (commitScene s d) = false := by
  have hi := pushHistory_index { s with elements := d } d
  show canRedo (pushHistory { s with elements := d } d) = false
  simp only [canRedo, hi]
  simp

/-- C5: `pushHistory` truncates every snapshot after the cursor, appends a
deep copy of the new document, and sets the cursor to the new last index;
`canUndo` holds iff the cursor is positive and `canRedo` holds iff the
cursor is below the last index; hence after an `undo` followed by a new
commit, `canRedo` is false. -/
theorem pushHistory_redo_discard (s : BoardState) (d : List (Element ℚ))
    (hinv : HistInv s) :
    (commitScene s d).history
        = s.history.take (s.historyIndex + 1).toNat ++ [deepCloneScene d] ∧
    (commitScene s d).historyIndex = ((commitScene s d).history.length : ℤ) - 1 ∧
    (commitScene s d).elements = d ∧
    (canUndo s = true ↔ 0 < s.historyIndex) ∧
    (canRedo s = true ↔ s.historyIndex < (s.history.length : ℤ) - 1) ∧
    canRedo (commitScene (undo s) d) = false := by
  refine ⟨pushHistory_history { s with elements := d } d,
    pushHistory_index { s with elements := d } d, rfl, by simp [canUndo], ?_,
    commitScene_canRedo_false (undo s) d⟩
  rcases hinv with ⟨h1, h2⟩ | ⟨h1, h2⟩
  · rw [h1, h2]
    simp [canRedo, h1]
  · simp [canRedo, h1]

/-- Witness for C5 at the freshly seeded initial state. -/
theorem pushHistory_redo_discard_witness :
    HistInv initialState ∧
      canRedo (commitScene (undo initialState) []) = false := by
  have h : HistInv initialState := Or.inr ⟨by decide, by decide⟩
  exact ⟨h, (pushHistory_redo_discard initialState [] h).2.2.2.2.2⟩

/-! ### Persistence round trip -/

/-- Decoding inverts encoding, elementwise over a list. -/
theorem decList_enc {β : Type} (f : Json → Option β) (g : β → Json)
    (hfg : ∀ x, f (g x) = some x) (l : List β) :
    decList f (l.map g) = some l := by
  induction l with
  | nil => rfl
  | cons x xs ih => simp [decList, hfg, ih]

/-- Decoding inverts encoding for points. -/
theorem decPoint_enc (p : Point ℚ) : decPoint (encPoint p) = some p := rfl

/-- Decoding inverts encoding for dots. -/
theorem decDot_enc (d : Dot ℚ) : decDot (encDot d) = some d := rfl

/-- Decoding inverts encoding for stroke styles. -/
theorem decStyle_enc (st : StrokeStyle ℚ) : decStyle (encStyle st) = some st := by
  cases st with
  | mk t b c sz => cases t <;> cases b <;> rfl

/-- Decoding inverts encoding for shape tags. -/
theorem decShapeType_enc (sh : ShapeType) : decShapeType (encShapeType sh) = some sh := by
  cases sh <;> rfl

/-- Decoding inverts encoding for elements. -/
theorem decElement_enc (e : Element ℚ) : decElement (encElement e) = some e := by
  cases e with
  | stroke s =>
    cases s with
    | mk i pts st ds =>
      cases ds with
      | none =>
        simp [encElement, decElement, decStyle_enc,
          decList_enc decPoint encPoint decPoint_enc]
      | some ds' =>
        simp [encElement, decElement, decStyle_enc,
          decList_enc decPoint encPoint decPoint_enc,
          decList_enc decDot encDot decDot_enc]
  | shape s =>
    cases s with
    | mk i sh a1 b1 a2 b2 c sz =>
      simp [encElement, decElement, decShapeType_enc]

/-- Decoding inverts encoding for whole scenes, order-preserving. -/
theorem decScene_enc (l : List (Element ℚ)) : decScene (encScene l) = some l := by
  simp [encScene, decScene, decList_enc decElement encElement decElement_enc]

/-- Decoding inverts encoding for the persisted record. -/
theorem decPersisted_enc (p : Persisted) :
    decPersisted (encPersisted p) = some p := by
  cases p with
  | mk d c =>
    simp [encPersisted, decPersisted, decScene_enc, Rat.den_intCast, Rat.num_intCast]

/-- C9: saving produces exactly the two-field record holding the document
and the cursor index (source field names `scene` / `historyIndex`, called
`document` / `cursorIndex` by the spec); the serialization of the document
is order-preserving and carries no extra fields, decoding inverts it
exactly (so the stored string is reproduced byte-for-byte across a
save/load round trip), the load effect accepts exactly this record and
installs the document unchanged, and the cursor saved by a commit is the
committed cursor. -/
theorem persistence_roundtrip :
    (∀ p : Persisted, decPersisted (encPersisted p) = some p) ∧
    (∀ (p : Persisted) (s : BoardState),
      loadEffect (some (encPersisted p)) s
        = { s with elements := p.document, history := [p.document],
                   historyIndex := 0, selectedId := none }) ∧
    (∀ (s : BoardState) (d : List (Element ℚ)),
      (pushPersisted s d).document = d ∧
      (HistInv s → (pushPersisted s d).cursorIndex = (pushHistory s d).historyIndex)) := by
  refine ⟨decPersisted_enc, ?_, ?_⟩
  · intro p s
    simp [loadEffect, decPersisted_enc, deepCloneScene]
  · intro s d
    refine ⟨rfl, ?_⟩
    intro hinv
    rw [pushHistory_index, pushHistory_history]
    rcases hinv with ⟨h1, h2⟩ | ⟨h1, h2⟩
    · simp [pushPersisted, h1, h2]
    · simp only [pushPersisted, if_pos h1]
      simp [List.length_take]
      omega

/-- Witness for C9 at a concrete one-stroke document. -/
theorem persistence_roundtrip_witness :
    HistInv initialState ∧
      (pushPersisted initialState
          [Element.stroke ⟨"s1", [⟨0, 0⟩], ⟨PenTool.pen, Brush.pencil, "#111111", 6⟩, none⟩]).cursorIndex
        = (pushHistory initialState
          [Element.stroke ⟨"s1", [⟨0, 0⟩], ⟨PenTool.pen, Brush.pencil, "#111111", 6⟩, none⟩]).historyIndex := by
  have h : HistInv initialState := Or.inr ⟨by decide, by decide⟩
  exact ⟨h, ((persistence_roundtrip.2.2 initialState _).2) h⟩

/-! ### Hit-test / selection resolver -/

/-- The line branch of `hitTestShape` computes exactly the spec's
`distanceToSegmentSquared` test at threshold `(pad+2)²`. -/
theorem hitTest_line_iff (s : ShapeElement ℚ) (p : Point ℚ)
    (h : s.shape = ShapeType.line) :
    (hitTestShape s p = true ↔
      distanceToSegmentSquared ⟨s.x1, s.y1⟩ ⟨s.x2, s.y2⟩ p
        ≤ (max 6 s.size + 2) ^ 2) := by
  rw [hitTestShape, if_pos h]
  unfold distanceToSegmentSquared
  dsimp only
  split_ifs with hlen <;>
    simp only [decide_eq_true_eq] <;>
    constructor <;> intro h' <;> nlinarith [h']

/-- The ellipse branch of `hitTestShape` computes exactly the spec's padded
normalized ellipse test. -/
theorem hitTest_ellipse_iff (s : ShapeElement ℚ) (p : Point ℚ)
    (h : s.shape = ShapeType.ellipse) :
    (hitTestShape s p = true ↔
      containsEllipse (normalizeRect s.x1 s.y1 s.x2 s.y2) p (max 6 s.size)) := by
  rw [hitTestShape, if_neg (by rw [h]; intro hc; cases hc)]
  rw [if_neg (by rw [h]; intro hc; exact hc rfl)]
  unfold containsEllipse
  simp only [decide_eq_true_eq]
  constructor <;> intro h' <;> nlinarith [h']

/-- Every other branch of `hitTestShape` computes exactly the spec's padded
bounding-box test. -/
theorem hitTest_box_iff (s : ShapeElement ℚ) (p : Point ℚ)
    (h1 : s.shape ≠ ShapeType.line) (h2 : s.shape ≠ ShapeType.ellipse) :
    (hitTestShape s p = true ↔
      containsPoint (normalizeRect s.x1 s.y1 s.x2 s.y2) p (max 6 s.size)) := by
  rw [hitTestShape, if_neg h1, if_pos h2]
  unfold containsPoint
  simp [decide_eq_true_eq]

/-- A fold that keeps the last accepted entry equals a `find?` over the
reversed list, with the accumulator as fallback. -/
theorem foldl_keepLast {β : Type} (pred : β → Bool) (L : List β) :
    ∀ acc : Option β,
      L.foldl (fun a sh => if pred sh then some sh else a) acc
        = (match L.reverse.find? pred with
           | Option.some x => some x
           | Option.none => acc) := by
  induction L with
  | nil => intro acc; rfl
  | cons x L ih =>
    intro acc
    rw [List.foldl_cons, ih (if pred x then some x else acc)]
    rw [List.reverse_cons, List.find?_append]
    cases hL : L.reverse.find? pred with
    | some y => simp
    | none =>
      simp only [Option.none_orElse]
      cases hx : pred x <;> simp [List.find?, hx]

/-- Folding the element-level scan equals folding the shape-only scan over
the filtered shape list. -/
theorem specScan_eq_foldl_shapes (els : List (Element ℚ)) (p : Point ℚ) :
    ∀ acc : Option (ShapeElement ℚ),
      els.foldl
          (fun acc e =>
            match e with
            | Element.shape sh => if hitTestShape sh p then some sh else acc
            | Element.stroke _ => acc)
          acc
        = (shapesOf els).foldl
            (fun a sh => if hitTestShape sh p then some sh else a) acc := by
  induction els with
  | nil => intro acc; rfl
  | cons e es ih =>
    intro acc
    cases e with
    | stroke st => simpa [shapesOf, asShape] using ih acc
    | shape sh =>
      simp only [List.foldl_cons, shapesOf, List.filterMap_cons, asShape]
      exact ih _

/-- The resolver of `onPointerDown` (`[...shapes].reverse().find(...)`)
computes the claim's single backward scan. -/
theorem selectHit_eq_specScan (els : List (Element ℚ)) (p : Point ℚ) :
    selectHit els p = specScan els p := by
  rw [specScan, specScan_eq_foldl_shapes els p none,
    foldl_keepLast (fun sh => hitTestShape sh p) (shapesOf els) none]
  rw [selectHit]
  cases h : (shapesOf els).reverse.find? (fun sh => hitTestShape sh p) <;> simp [h]

/-- No selection exactly when no shape's test succeeds. -/
theorem selectHit_none_iff (els : List (Element ℚ)) (p : Point ℚ) :
    selectHit els p = none ↔ ∀ sh ∈ shapesOf els, hitTestShape sh p = false := by
  rw [selectHit]
  rw [List.find?_eq_none]
  constructor
  · intro h sh hm
    have := h sh (List.mem_reverse.mpr hm)
    simpa using this
  · intro h sh hm
    have := h sh (List.mem_reverse.mp hm)
    simpa using this

/-- C4 counterexample: for the nearly-degenerate line `(0,0)–(1/2000,0)`
(squared length `2.5e-7 < 1e-6`) and the pointer at `(8 + 1/4000, 0)`, the
code's point-distance fallback rejects the hit although the clamped squared
point-to-segment distance is within the `(pad+2)²` threshold, so the claim's
"hits iff the clamped squared point-to-segment distance is ≤ (pad+2)²" is
false as stated. -/
theorem hitTest_line_claim_cx :
    ¬ (hitTestShape
          (⟨"ln", ShapeType.line, 0, 0, 1 / 2000, 0, "#111111", 1⟩ : ShapeElement ℚ)
          ⟨8 + 1 / 4000, 0⟩ = true ↔
        clampedSegDist2 ⟨0, 0⟩ ⟨1 / 2000, 0⟩ ⟨8 + 1 / 4000, 0⟩
          ≤ (max 6 (1 : ℚ) + 2) ^ 2) := by
  have h1 : hitTestShape
      (⟨"ln", ShapeType.line, 0, 0, 1 / 2000, 0, "#111111", 1⟩ : ShapeElement ℚ)
      ⟨8 + 1 / 4000, 0⟩ = false := by
    rw [hitTestShape, if_pos rfl]
    norm_num [max_def]
  have h2 : clampedSegDist2 ⟨0, 0⟩ ⟨1 / 2000, 0⟩ ⟨8 + 1 / 4000, 0⟩
      ≤ (max 6 (1 : ℚ) + 2) ^ 2 := by
    unfold clampedSegDist2
    norm_num [max_def, min_def]
  intro h
  rw [h1] at h
  exact absurd (h.mpr h2) (by simp)

/-- C4 (amended): the resolver considers only shape elements scanning from
the topmost backward and returns the first hit or nothing; `pad` is
`max(6, size)`; a line hits iff the spec's `distanceToSegmentSquared`
(degrading to point distance from the first anchor below the `1e-6` squared
length epsilon, else clamped-projection distance) is within `(pad+2)²`; an
ellipse uses the padded normalized ellipse test; every other kind uses the
bounding box expanded by `pad`. -/
theorem selection_resolver_spec :
    (∀ (els : List (Element ℚ)) (p : Point ℚ),
      selectHit els p = specScan els p ∧
      (selectHit els p = none ↔ ∀ sh ∈ shapesOf els, hitTestShape sh p = false)) ∧
    (∀ (s : ShapeElement ℚ) (p : Point ℚ), s.shape = ShapeType.line →
      (hitTestShape s p = true ↔
        distanceToSegmentSquared ⟨s.x1, s.y1⟩ ⟨s.x2, s.y2⟩ p
          ≤ (max 6 s.size + 2) ^ 2)) ∧
    (∀ (s : ShapeElement ℚ) (p : Point ℚ), s.shape = ShapeType.ellipse →
      (hitTestShape s p = true ↔
        containsEllipse (normalizeRect s.x1 s.y1 s.x2 s.y2) p (max 6 s.size))) ∧
    (∀ (s : ShapeElement ℚ) (p : Point ℚ),
      s.shape ≠ ShapeType.line → s.shape ≠ ShapeType.ellipse →
      (hitTestShape s p = true ↔
        containsPoint (normalizeRect s.x1 s.y1 s.x2 s.y2) p (max 6 s.size))) :=
  ⟨fun els p => ⟨selectHit_eq_specScan els p, selectHit_none_iff els p⟩,
   hitTest_line_iff, hitTest_ellipse_iff, hitTest_box_iff⟩

/-- Witness for C4 on a concrete two-element document: the stroke on top is
skipped and the rectangle below is hit through the padded box test. -/
theorem selection_resolver_spec_witness :
    ((⟨"r1", ShapeType.rect, 10, 10, 50, 40, "#111111", 4⟩ : ShapeElement ℚ).shape
        ≠ ShapeType.line ∧
      (⟨"r1", ShapeType.rect, 10, 10, 50, 40, "#111111", 4⟩ : ShapeElement ℚ).shape
        ≠ ShapeType.ellipse) ∧
    selectHit
        [Element.shape ⟨"r1", ShapeType.rect, 10, 10, 50, 40, "#111111", 4⟩,
         Element.stroke ⟨"s1", [⟨0, 0⟩], ⟨PenTool.pen, Brush.pencil, "#111111", 6⟩, none⟩]
        ⟨30, 25⟩
      = specScan
        [Element.shape ⟨"r1", ShapeType.rect, 10, 10, 50, 40, "#111111", 4⟩,
         Element.stroke ⟨"s1", [⟨0, 0⟩], ⟨PenTool.pen, Brush.pencil, "#111111", 6⟩, none⟩]
        ⟨30, 25⟩ ∧
    (hitTestShape (⟨"r1", ShapeType.rect, 10, 10, 50, 40, "#111111", 4⟩ : ShapeElement ℚ)
        ⟨30, 25⟩ = true ↔
      containsPoint (normalizeRect (10 : ℚ) 10 50 40) ⟨30, 25⟩ (max 6 4)) := by
  have h1 : (⟨"r1", ShapeType.rect, 10, 10, 50, 40, "#111111", 4⟩ : ShapeElement ℚ).shape
      ≠ ShapeType.line := by intro hc; cases hc
  have h2 : (⟨"r1", ShapeType.rect, 10, 10, 50, 40, "#111111", 4⟩ : ShapeElement ℚ).shape
      ≠ ShapeType.ellipse := by intro hc; cases hc
  exact ⟨⟨h1, h2⟩, (selection_resolver_spec.1 _ _).1,
    selection_resolver_spec.2.2.2 _ _ h1 h2⟩

/-- C8: the line branch of `hitTestShape` is total and never divides by
zero: it computes the spec's `distanceToSegmentSquared`, which below the
`1e-6` squared-length epsilon degrades to the point-distance test (circle of
radius `pad+2`), and otherwise has a strictly positive divisor and clamps the
projection parameter to `[0, 1]` before measuring the distance. -/
theorem hitTest_line_total (s : ShapeElement ℚ) (p : Point ℚ)
    (h : s.shape = ShapeType.line) :
    (hitTestShape s p = true ↔
      distanceToSegmentSquared ⟨s.x1, s.y1⟩ ⟨s.x2, s.y2⟩ p
        ≤ (max 6 s.size + 2) ^ 2) ∧
    ((s.x2 - s.x1) * (s.x2 - s.x1) + (s.y2 - s.y1) * (s.y2 - s.y1) < 1 / 1000000 →
      distanceToSegmentSquared ⟨s.x1, s.y1⟩ ⟨s.x2, s.y2⟩ p
        = (p.x - s.x1) ^ 2 + (p.y - s.y1) ^ 2) ∧
    (1 / 1000000 ≤ (s.x2 - s.x1) * (s.x2 - s.x1) + (s.y2 - s.y1) * (s.y2 - s.y1) →
      0 < (s.x2 - s.x1) * (s.x2 - s.x1) + (s.y2 - s.y1) * (s.y2 - s.y1) ∧
      ∀ t : ℚ,
        t = max 0 (min 1
          (((p.x - s.x1) * (s.x2 - s.x1) + (p.y - s.y1) * (s.y2 - s.y1)) /
            ((s.x2 - s.x1) * (s.x2 - s.x1) + (s.y2 - s.y1) * (s.y2 - s.y1)))) →
        0 ≤ t ∧ t ≤ 1 ∧
        distanceToSegmentSquared ⟨s.x1, s.y1⟩ ⟨s.x2, s.y2⟩ p
          = (p.x - (s.x1 + t * (s.x2 - s.x1))) ^ 2 +
              (p.y - (s.y1 + t * (s.y2 - s.y1))) ^ 2) := by
  refine ⟨hitTest_line_iff s p h, ?_, ?_⟩
  · intro hlen
    unfold distanceToSegmentSquared
    rw [if_pos]
    exact hlen
  · intro hlen
    refine ⟨by linarith, ?_⟩
    intro t ht
    refine ⟨by rw [ht]; exact le_max_left 0 _, ?_, ?_⟩
    · rw [ht]
      exact max_le (by norm_num) (min_le_left 1 _)
    · unfold distanceToSegmentSquared
      rw [if_neg (by push_neg; exact hlen), ht]

/-- Witness for C8 at a concrete non-degenerate line and pointer. -/
theorem hitTest_line_total_witness :
    ((⟨"ln", ShapeType.line, 0, 0, 2, 0, "#111111", 1⟩ : ShapeElement ℚ).shape
        = ShapeType.line ∧
      (1 : ℚ) / 1000000 ≤ (2 - 0) * (2 - 0) + (0 - 0) * (0 - 0)) ∧
    (hitTestShape (⟨"ln", ShapeType.line, 0, 0, 2, 0, "#111111", 1⟩ : ShapeElement ℚ)
        ⟨1, 1⟩ = true ↔
      distanceToSegmentSquared ⟨0, 0⟩ ⟨2, 0⟩ ⟨1, 1⟩ ≤ (max 6 (1 : ℚ) + 2) ^ 2) ∧
    (0 : ℚ) < (2 - 0) * (2 - 0) + (0 - 0) * (0 - 0) :=
  ⟨⟨rfl, by norm_num⟩,
   (hitTest_line_total _ _ rfl).1,
   ((hitTest_line_total
      (⟨"ln", ShapeType.line, 0, 0, 2, 0, "#111111", 1⟩ : ShapeElement ℚ)
      ⟨1, 1⟩ rfl).2.2 (by norm_num)).1⟩

/-! ### Airbrush sampler -/

/-- For a nonnegative rational, `Nat.sqrt` of the floor computes the floor
of the real square root, so `airSteps` is a faithful embedding of
`Math.floor(Math.sqrt(d2) / 2)`. -/
theorem natSqrt_floor_eq (q : ℚ) (hq : 0 ≤ q) :
    ((Nat.sqrt (Int.toNat ⌊q⌋) : ℤ)) = ⌊Real.sqrt ((q : ℝ))⌋ := by
  have hfl0 : (0 : ℤ) ≤ ⌊q⌋ := Int.floor_nonneg.mpr hq
  set m : ℕ := Int.toNat ⌊q⌋ with hm
  set n : ℕ := Nat.sqrt m with hn
  have hmq : ((m : ℤ)) = ⌊q⌋ := Int.toNat_of_nonneg hfl0
  have hmq' : ((m : ℚ)) ≤ q := by
    have h := Int.floor_le q
    rw [← hmq] at h
    exact_mod_cast h
  have hq' : (0 : ℝ) ≤ (q : ℝ) := by exact_mod_cast hq
  symm
  rw [Int.floor_eq_iff]
  constructor
  · have h1 : n ^ 2 ≤ m := Nat.sqrt_le' m
    have h2 : ((n : ℝ)) ^ 2 ≤ (q : ℝ) := by
      calc ((n : ℝ)) ^ 2 ≤ (m : ℝ) := by exact_mod_cast h1
        _ ≤ (q : ℝ) := by exact_mod_cast hmq'
    have h3 := (Real.le_sqrt (by positivity) hq').mpr h2
    exact_mod_cast h3
  · have h4 : q < ((m : ℚ)) + 1 := by
      have h := Int.lt_floor_add_one q
      rw [← hmq] at h
      exact_mod_cast h
    have h5 : m + 1 ≤ (n + 1) ^ 2 := Nat.lt_succ_sqrt' m
    have h6 : (q : ℝ) < ((n : ℝ) + 1) ^ 2 := by
      calc (q : ℝ) < (m : ℝ) + 1 := by exact_mod_cast h4
        _ ≤ ((n : ℝ) + 1) ^ 2 := by exact_mod_cast h5
    have h7 := (Real.sqrt_lt' (by positivity)).mpr h6
    push_cast
    exact h7

/-- `airSteps` equals `Math.max(1, Math.floor(Math.sqrt(d2) / 2))` computed
over the reals, so the ℚ-level embedding agrees with the source's use of
`Math.sqrt`. -/
theorem airSteps_eq (a b : Point ℚ) :
    (airSteps a b : ℤ) = max 1 ⌊Real.sqrt (((dist2 a b : ℚ) : ℝ)) / 2⌋ := by
  have hd2 : (0 : ℚ) ≤ dist2 a b := by
    unfold dist2
    nlinarith [mul_self_nonneg (a.x - b.x), mul_self_nonneg (a.y - b.y)]
  have h4 : (0 : ℚ) ≤ dist2 a b / 4 := by linarith
  have key := natSqrt_floor_eq (dist2 a b / 4) h4
  unfold airSteps
  rw [Nat.cast_max, Nat.cast_one, key]
  congr 1
  have hcast : ((dist2 a b / 4 : ℚ) : ℝ) = ((dist2 a b : ℚ) : ℝ) * (1 / 2) ^ 2 := by
    push_cast
    ring
  rw [hcast, Real.sqrt_mul (by exact_mod_cast hd2), Real.sqrt_sq (by norm_num)]
  congr 1
  ring

/-- Length of the inner airbrush loop. -/
theorem airDotsRow_length (twoPi : ℚ) (cosf sinf : ℚ → ℚ) (rng : ℕ → ℚ)
    (radius x y : ℚ) (k0 : ℕ) :
    ∀ j, (airDotsRow twoPi cosf sinf rng radius x y k0 j).length = j := by
  intro j
  induction j with
  | zero => rfl
  | succ m ih => simp [airDotsRow, ih]

/-- Length of the outer airbrush loop: `count` dots per visited point. -/
theorem airSegDots_length (twoPi : ℚ) (cosf sinf : ℚ → ℚ) (rng : ℕ → ℚ)
    (a b : Point ℚ) (radius : ℚ) (steps count : ℕ) :
    ∀ n, (airSegDots twoPi cosf sinf rng a b radius steps count n).length
      = n * count := by
  intro n
  induction n with
  | zero => simp [airSegDots]
  | succ m ih =>
    simp [airSegDots, ih, airDotsRow_length]
    ring

/-- Every dot of the inner loop is an `airDot` at the loop's point. -/
theorem airDotsRow_mem (twoPi : ℚ) (cosf sinf : ℚ → ℚ) (rng : ℕ → ℚ)
    (radius x y : ℚ) (k0 : ℕ) :
    ∀ j d, d ∈ airDotsRow twoPi cosf sinf rng radius x y k0 j →
      ∃ k, d = airDot twoPi cosf sinf rng radius x y k := by
  intro j
  induction j with
  | zero => intro d hd; cases hd
  | succ m ih =>
    intro d hd
    rw [airDotsRow, List.mem_append] at hd
    rcases hd with hd | hd
    · exact ih d hd
    · rw [List.mem_singleton] at hd
      exact ⟨k0 + 3 * m, hd⟩

/-- Every dot of the outer loop is an `airDot` at some interpolated point. -/
theorem airSegDots_mem (twoPi : ℚ) (cosf sinf : ℚ → ℚ) (rng : ℕ → ℚ)
    (a b : Point ℚ) (radius : ℚ) (steps count : ℕ) :
    ∀ n d, d ∈ airSegDots twoPi cosf sinf rng a b radius steps count n →
      ∃ i, i < n ∧ ∃ k, d = airDot twoPi cosf sinf rng radius
        (a.x + (b.x - a.x) * ((i : ℚ) / (steps : ℚ)))
        (a.y + (b.y - a.y) * ((i : ℚ) / (steps : ℚ))) k := by
  intro n
  induction n with
  | zero => intro d hd; cases hd
  | succ m ih =>
    intro d hd
    rw [airSegDots, List.mem_append] at hd
    rcases hd with hd | hd
    · obtain ⟨i, hi, hk⟩ := ih d hd
      exact ⟨i, Nat.lt_succ_of_lt hi, hk⟩
    · obtain ⟨k, hk⟩ := airDotsRow_mem twoPi cosf sinf rng radius _ _ _ count d hd
      exact ⟨m, Nat.lt_succ_self m, k, hk⟩

/-- Pointwise facts about one sampled dot: fixed alpha `0.20`, dot radius
`max(1, rand·(radius/3))`, and placement within `radius` of `(x, y)`. -/
theorem airDot_props (twoPi : ℚ) (cosf sinf : ℚ → ℚ) (rng : ℕ → ℚ)
    (radius x y : ℚ) (k : ℕ)
    (hcs : ∀ u, cosf u ^ 2 + sinf u ^ 2 = 1)
    (hrng : ∀ j, 0 ≤ rng j ∧ rng j < 1)
    (hrad : 0 < radius) :
    (airDot twoPi cosf sinf rng radius x y k).a = 1 / 5 ∧
    1 ≤ (airDot twoPi cosf sinf rng radius x y k).r ∧
    (airDot twoPi cosf sinf rng radius x y k).r ≤ max 1 (radius / 3) ∧
    ((airDot twoPi cosf sinf rng radius x y k).x - x) ^ 2 +
        ((airDot twoPi cosf sinf rng radius x y k).y - y) ^ 2 ≤ radius ^ 2 := by
  unfold airDot
  dsimp only
  refine ⟨rfl, le_max_left 1 _, ?_, ?_⟩
  · refine max_le (le_max_left 1 _) (le_trans ?_ (le_max_right 1 (radius / 3)))
    have h0 := (hrng (k + 2)).1
    have h1 := (hrng (k + 2)).2
    nlinarith
  · have hc := hcs (rng k * twoPi)
    have h0 := (hrng (k + 1)).1
    have h1 := (hrng (k + 1)).2
    have hrr : 0 ≤ rng (k + 1) * radius := by positivity
    have hrr2 : rng (k + 1) * radius ≤ radius := by nlinarith
    have hsum : (cosf (rng k * twoPi) * (rng (k + 1) * radius)) ^ 2 +
        (sinf (rng k * twoPi) * (rng (k + 1) * radius)) ^ 2
          = (rng (k + 1) * radius) ^ 2 := by
      have : (cosf (rng k * twoPi) * (rng (k + 1) * radius)) ^ 2 +
          (sinf (rng k * twoPi) * (rng (k + 1) * radius)) ^ 2
            = (cosf (rng k * twoPi) ^ 2 + sinf (rng k * twoPi) ^ 2) *
                (rng (k + 1) * radius) ^ 2 := by ring
      rw [this, hc, one_mul]
    calc (x + cosf (rng k * twoPi) * (rng (k + 1) * radius) - x) ^ 2 +
          (y + sinf (rng k * twoPi) * (rng (k + 1) * radius) - y) ^ 2
        = (cosf (rng k * twoPi) * (rng (k + 1) * radius)) ^ 2 +
            (sinf (rng k * twoPi) * (rng (k + 1) * radius)) ^ 2 := by ring
      _ = (rng (k + 1) * radius) ^ 2 := hsum
      _ ≤ radius ^ 2 := by nlinarith

/-- C3 counterexample: for a zero-length airbrush segment at thickness 1
(steps = 1), the claim predicts `steps · ⌊1 · 1.6⌋ = 1` new particle, but
the generator visits `steps + 1 = 2` interpolation points and appends
`⌊max(2, 1) · 1.6⌋ = 3` particles at each, 6 in total. -/
theorem airbrush_sampler_claim_cx :
    ((addAirbrushDots 0 (fun _ => 1) (fun _ => 0) (fun _ => 0)
        ⟨"s1", [⟨0, 0⟩], ⟨PenTool.pen, Brush.airbrush, "#111111", 1⟩, some []⟩
        ⟨0, 0⟩ ⟨0, 0⟩).dots.getD []).length
      ≠ airSteps ⟨0, 0⟩ ⟨0, 0⟩ * (⌊(1 : ℚ) * (8 / 5)⌋).toNat := by
  have hsteps : airSteps (⟨0, 0⟩ : Point ℚ) ⟨0, 0⟩ = 1 := by
    unfold airSteps dist2
    norm_num
  have hcount : airCount (1 : ℚ) = 3 := by
    unfold airCount airRadius
    rw [show (max 2 (1 : ℚ)) = 2 from max_eq_left (by norm_num)]
    rw [show ((2 : ℚ) * (8 / 5)) = 16 / 5 by norm_num]
    rw [show ⌊(16 / 5 : ℚ)⌋ = 3 from by rw [Int.floor_eq_iff]; norm_num]
    rfl
  have h6 : ((addAirbrushDots 0 (fun _ => 1) (fun _ => 0) (fun _ => 0)
      ⟨"s1", [⟨0, 0⟩], ⟨PenTool.pen, Brush.airbrush, "#111111", 1⟩, some []⟩
      ⟨0, 0⟩ ⟨0, 0⟩).dots.getD []).length = 6 := by
    unfold addAirbrushDots
    simp only [hsteps, hcount]
    simp [airSegDots_length]
  rw [h6, hsteps]
  rw [show ⌊(1 : ℚ) * (8 / 5)⌋ = 1 from by rw [Int.floor_eq_iff]; norm_num]
  decide

/-- C3 (amended): between two recorded points the sampler uses
`steps = max(1, ⌊dist/2⌋)` but visits `steps + 1` interpolation points
(`i = 0 .. steps`), appending at each one `count = ⌊max(2, t)·1.6⌋`
particles; each particle lies within `max(2, t)` of its interpolated point,
has fixed alpha `0.20`, and has radius `max(1, rand·(max(2, t)/3))`, at most
`max(1, max(2, t)/3)`. -/
theorem airbrush_sampler_spec (twoPi : ℚ) (cosf sinf : ℚ → ℚ) (rng : ℕ → ℚ)
    (st : StrokeElement ℚ) (a b : Point ℚ)
    (hcs : ∀ u, cosf u ^ 2 + sinf u ^ 2 = 1)
    (hrng : ∀ j, 0 ≤ rng j ∧ rng j < 1) :
    ∃ newDots : List (Dot ℚ),
      (addAirbrushDots twoPi cosf sinf rng st a b).dots
          = some (st.dots.getD [] ++ newDots) ∧
      newDots.length = (airSteps a b + 1) * airCount st.style.size ∧
      ∀ d ∈ newDots,
        d.a = 1 / 5 ∧ 1 ≤ d.r ∧ d.r ≤ max 1 (airRadius st.style.size / 3) ∧
        ∃ i : ℕ, i ≤ airSteps a b ∧
          (d.x - (a.x + (b.x - a.x) * ((i : ℚ) / (airSteps a b : ℚ)))) ^ 2 +
              (d.y - (a.y + (b.y - a.y) * ((i : ℚ) / (airSteps a b : ℚ)))) ^ 2
            ≤ airRadius st.style.size ^ 2 := by
  refine ⟨airSegDots twoPi cosf sinf rng a b (airRadius st.style.size)
    (airSteps a b) (airCount st.style.size) (airSteps a b + 1), rfl, ?_, ?_⟩
  · exact airSegDots_length twoPi cosf sinf rng a b _ _ _ _
  · intro d hd
    obtain ⟨i, hi, k, hk⟩ := airSegDots_mem twoPi cosf sinf rng a b _ _ _ _ d hd
    have hrad : (0 : ℚ) < airRadius st.style.size :=
      lt_of_lt_of_le (by norm_num) (le_max_left 2 st.style.size)
    obtain ⟨hp1, hp2, hp3, hp4⟩ := airDot_props twoPi cosf sinf rng
      (airRadius st.style.size)
      (a.x + (b.x - a.x) * ((i : ℚ) / (airSteps a b : ℚ)))
      (a.y + (b.y - a.y) * ((i : ℚ) / (airSteps a b : ℚ)))
      k hcs hrng hrad
    rw [hk]
    exact ⟨hp1, hp2, hp3, i, Nat.lt_succ_iff.mp hi, hp4⟩

/-- Witness for C3 with a concrete trig/randomness instantiation. -/
theorem airbrush_sampler_spec_witness :
    ((∀ u : ℚ, (fun _ : ℚ => (1 : ℚ)) u ^ 2 + (fun _ : ℚ => (0 : ℚ)) u ^ 2 = 1) ∧
      (∀ j : ℕ, 0 ≤ (fun _ : ℕ => (0 : ℚ)) j ∧ (fun _ : ℕ => (0 : ℚ)) j < 1)) ∧
    ∃ newDots : List (Dot ℚ),
      (addAirbrushDots 0 (fun _ => 1) (fun _ => 0) (fun _ => 0)
          ⟨"s1", [⟨0, 0⟩], ⟨PenTool.pen, Brush.airbrush, "#111111", 4⟩, some []⟩
          ⟨0, 0⟩ ⟨4, 0⟩).dots
        = some ((⟨"s1", [⟨0, 0⟩], ⟨PenTool.pen, Brush.airbrush, "#111111", 4⟩,
            (some [] : Option (List (Dot ℚ)))⟩ : StrokeElement ℚ).dots.getD [] ++ newDots) ∧
      newDots.length = (airSteps ⟨0, 0⟩ ⟨4, 0⟩ + 1) * airCount 4 ∧
      ∀ d ∈ newDots,
        d.a = 1 / 5 ∧ 1 ≤ d.r ∧ d.r ≤ max 1 (airRadius 4 / 3) ∧
        ∃ i : ℕ, i ≤ airSteps ⟨0, 0⟩ ⟨4, 0⟩ ∧
          (d.x - (0 + (4 - 0) * ((i : ℚ) / (airSteps ⟨0, 0⟩ ⟨4, 0⟩ : ℚ)))) ^ 2 +
              (d.y - (0 + (0 - 0) * ((i : ℚ) / (airSteps ⟨0, 0⟩ ⟨4, 0⟩ : ℚ)))) ^ 2
            ≤ airRadius 4 ^ 2 := by
  have h1 : ∀ u : ℚ, (fun _ : ℚ => (1 : ℚ)) u ^ 2 + (fun _ : ℚ => (0 : ℚ)) u ^ 2 = 1 := by
    intro u; norm_num
  have h2 : ∀ j : ℕ, 0 ≤ (fun _ : ℕ => (0 : ℚ)) j ∧ (fun _ : ℕ => (0 : ℚ)) j < 1 := by
    intro j; norm_num
  exact ⟨⟨h1, h2⟩,
    airbrush_sampler_spec 0 (fun _ => 1) (fun _ => 0) (fun _ => 0)
      ⟨"s1", [⟨0, 0⟩], ⟨PenTool.pen, Brush.airbrush, "#111111", 4⟩, some []⟩
      ⟨0, 0⟩ ⟨4, 0⟩ h1 h2⟩

/-! ### Interaction reducer -/

/-- `addAirbrushDots` only extends the stored dots; the polyline is
untouched. -/
theorem addAirbrushDots_points (twoPi : ℚ) (cosf sinf : ℚ → ℚ) (rng : ℕ → ℚ)
    (st : StrokeElement ℚ) (a b : Point ℚ) :
    (addAirbrushDots twoPi cosf sinf rng st a b).points = st.points := rfl

/-- C7 (code evaluated against the claim): `onPointerMove` validates
nothing — in the pen/eraser branch with an active stroke it appends the
incoming point unconditionally, for every point whatsoever; there is no
guard that could reject a malformed (NaN/∞) coordinate, so the in-progress
element does not stay as it was. -/
theorem pointerMove_appends_unconditionally (twoPi : ℚ) (cosf sinf : ℚ → ℚ)
    (rng : ℕ → ℚ) (p : Point ℚ) (s : BoardState) (st : StrokeElement ℚ)
    (ht : s.tool = Tool.pen ∨ s.tool = Tool.eraser)
    (ha : s.activeStroke = some st) :
    ∃ st' : StrokeElement ℚ,
      (onPointerMove twoPi cosf sinf rng p s).activeStroke = some st' ∧
      st'.points = st.points ++ [p] := by
  have hsel : ¬ (s.tool = Tool.select ∧ s.drag.mode = DragMode.move) := by
    rcases ht with h | h <;> rw [h] <;> rintro ⟨hc, -⟩ <;> cases hc
  have hshape : ¬ s.tool = Tool.shape := by
    rcases ht with h | h <;> rw [h] <;> intro hc <;> cases hc
  unfold onPointerMove
  rw [if_neg hsel, if_neg hshape, if_pos ht, ha]
  dsimp only
  refine ⟨_, rfl, ?_⟩
  split
  · exact addAirbrushDots_points twoPi cosf sinf rng _ _ _
  · rfl

/-- Witness for C7: a pencil-stroke move appends the incoming point. -/
theorem pointerMove_appends_unconditionally_witness :
    (({ initialState with
          tool := Tool.pen,
          activeStroke := some ⟨"s1", [⟨0, 0⟩],
            ⟨PenTool.pen, Brush.pencil, "#111111", 6⟩, none⟩ } : BoardState).tool
          = Tool.pen ∨
        ({ initialState with
          tool := Tool.pen,
          activeStroke := some ⟨"s1", [⟨0, 0⟩],
            ⟨PenTool.pen, Brush.pencil, "#111111", 6⟩, none⟩ } : BoardState).tool
          = Tool.eraser) ∧
    ({ initialState with
        tool := Tool.pen,
        activeStroke := some ⟨"s1", [⟨0, 0⟩],
          ⟨PenTool.pen, Brush.pencil, "#111111", 6⟩, none⟩ } : BoardState).activeStroke
      = some ⟨"s1", [⟨0, 0⟩], ⟨PenTool.pen, Brush.pencil, "#111111", 6⟩, none⟩ ∧
    ∃ st' : StrokeElement ℚ,
      (onPointerMove 0 (fun _ => 1) (fun _ => 0) (fun _ => 0) ⟨5, 7⟩
          { initialState with
            tool := Tool.pen,
            activeStroke := some ⟨"s1", [⟨0, 0⟩],
              ⟨PenTool.pen, Brush.pencil, "#111111", 6⟩, none⟩ }).activeStroke
        = some st' ∧
      st'.points = [(⟨0, 0⟩ : Point ℚ)] ++ [⟨5, 7⟩] :=
  ⟨Or.inl rfl, rfl,
   pointerMove_appends_unconditionally 0 (fun _ => 1) (fun _ => 0) (fun _ => 0)
     ⟨5, 7⟩
     { initialState with
       tool := Tool.pen,
       activeStroke := some ⟨"s1", [⟨0, 0⟩],
         ⟨PenTool.pen, Brush.pencil, "#111111", 6⟩, none⟩ }
     ⟨"s1", [⟨0, 0⟩], ⟨PenTool.pen, Brush.pencil, "#111111", 6⟩, none⟩
     (Or.inl rfl) rfl⟩

/-- C10: pointer-cancel is wired to the same handler as pointer-up, and a
pointer-up ending a shape or stroke gesture commits exactly the previous
document with the one in-progress element appended at the end (all earlier
elements unchanged, in order), clears the in-progress slot, and pushes one
history snapshot of that document. -/
theorem pointerUp_commit_frame :
    (∀ (p : Point ℚ) (s : BoardState), onPointerCancel p s = onPointerUp p s) ∧
    (∀ (p : Point ℚ) (s : BoardState) (sh : ShapeElement ℚ),
      s.tool = Tool.shape → s.activeShape = some sh →
      (onPointerUp p s).elements = s.elements ++ [Element.shape sh] ∧
      (onPointerUp p s).activeShape = none ∧
      (onPointerUp p s).history
        = s.history.take (s.historyIndex + 1).toNat
            ++ [s.elements ++ [Element.shape sh]]) ∧
    (∀ (p : Point ℚ) (s : BoardState) (st : StrokeElement ℚ),
      (s.tool = Tool.pen ∨ s.tool = Tool.eraser) → s.activeStroke = some st →
      (onPointerUp p s).elements = s.elements ++ [Element.stroke st] ∧
      (onPointerUp p s).activeStroke = none ∧
      (onPointerUp p s).history
        = s.history.take (s.historyIndex + 1).toNat
            ++ [s.elements ++ [Element.stroke st]]) := by
  refine ⟨fun p s => rfl, ?_, ?_⟩
  · intro p s sh ht ha
    have hsel : ¬ (s.tool = Tool.select ∧ s.drag.mode = DragMode.move) := by
      rw [ht]; rintro ⟨hc, -⟩; cases hc
    unfold onPointerUp
    rw [if_neg hsel, if_pos ht, ha]
    dsimp only
    exact ⟨rfl, rfl, pushHistory_history _ _⟩
  · intro p s st ht ha
    have hsel : ¬ (s.tool = Tool.select ∧ s.drag.mode = DragMode.move) := by
      rcases ht with h | h <;> rw [h] <;> rintro ⟨hc, -⟩ <;> cases hc
    have hshape : ¬ s.tool = Tool.shape := by
      rcases ht with h | h <;> rw [h] <;> intro hc <;> cases hc
    unfold onPointerUp
    rw [if_neg hsel, if_neg hshape, if_pos ht, ha]
    dsimp only
    exact ⟨rfl, rfl, pushHistory_history _ _⟩

/-- Witness for C10: releasing a rectangle gesture on the initial state
appends exactly that rectangle and clears the in-progress slot. -/
theorem pointerUp_commit_frame_witness :
    (({ initialState with
          tool := Tool.shape,
          activeShape := some ⟨"r1", ShapeType.rect, 10, 10, 50, 40, "#111111", 4⟩ }
            : BoardState).tool = Tool.shape ∧
      ({ initialState with
          tool := Tool.shape,
          activeShape := some ⟨"r1", ShapeType.rect, 10, 10, 50, 40, "#111111", 4⟩ }
            : BoardState).activeShape
        = some ⟨"r1", ShapeType.rect, 10, 10, 50, 40, "#111111", 4⟩) ∧
    (onPointerUp ⟨50, 40⟩
        { initialState with
          tool := Tool.shape,
          activeShape :=
            some ⟨"r1", ShapeType.rect, 10, 10, 50, 40, "#111111", 4⟩ }).elements
      = [] ++ [Element.shape ⟨"r1", ShapeType.rect, 10, 10, 50, 40, "#111111", 4⟩] ∧
    (onPointerUp ⟨50, 40⟩
        { initialState with
          tool := Tool.shape,
          activeShape :=
            some ⟨"r1", ShapeType.rect, 10, 10, 50, 40, "#111111", 4⟩ }).activeShape
      = none :=
  ⟨⟨rfl, rfl⟩,
   (pointerUp_commit_frame.2.1 ⟨50, 40⟩ _ _ rfl rfl).1,
   (pointerUp_commit_frame.2.1 ⟨50, 40⟩ _ _ rfl rfl).2.1⟩

end Boardly
